import Mathlib

/-
Shallow embedding of the hybrid storage/sync engine of the repository
(src/lib/storage: types.ts, indexeddb-adapter.ts, supabase-adapter.ts,
the SyncManager file, storage-manager.ts).

Modelling conventions:
* Timestamps are natural numbers; ISO-8601 strings compare exactly like
  the instants they denote, and 0 plays the role of a missing or empty
  timestamp, matching JavaScript falsiness of the empty string and of
  an absent field.
* A stored row (DataRecord) carries the metadata columns of the source
  (id, created_at, updated_at, _version as vers, _device_id as device,
  _sync_status as status) plus an association list fields for the
  schema-specific business attributes of the open record shape.
* RecData is the shape of a Partial record in the source: the input of
  addMetadata, an update patch, a pending-operation payload.  Every
  column is optional; none models an absent key.
* Fresh ids produced by generateId are modelled by a counter threaded
  through the operations (genId n); the Date.now clock is an explicit
  now parameter.
* Fallible operations return Except String.
-/

inductive SyncState where
  | pending
  | synced
  | conflict
  deriving DecidableEq, Repr

inductive SyncStrategy where
  | localWins
  | remoteWins
  | manual
  | newestWins
  deriving DecidableEq, Repr

/-- JavaScript `x || d` for a string field: an absent key and the empty
string are both falsy. -/
def jsOrStr (x : Option String) (d : String) : String :=
  match x with
  | none => d
  | some s => if s = "" then d else s

/-- JavaScript `x || d` for a timestamp field: 0 models a falsy value. -/
def jsOrNat (x : Option Nat) (d : Nat) : Nat :=
  match x with
  | none => d
  | some n => if n = 0 then d else n

/-- First option if present, otherwise the second (spread-merge of one key). -/
def oget {α : Type} (x y : Option α) : Option α :=
  match x with
  | some v => some v
  | none => y

/-- A stored record: the DataRecord interface of types.ts plus the open
business attributes. -/
structure DataRecord where
  id : String
  created_at : Nat
  updated_at : Nat
  vers : Nat
  device : String
  status : Option SyncState
  fields : List (String × String)
  deriving DecidableEq, Repr

/-- A partial record: every key optional, as in a Partial payload. -/
structure RecData where
  id : Option String := none
  created_at : Option Nat := none
  updated_at : Option Nat := none
  vers : Option Nat := none
  device : Option String := none
  status : Option SyncState := none
  fields : List (String × String) := []
  deriving DecidableEq, Repr

/-- Spreading a full record into a partial payload. -/
def DataRecord.toData (r : DataRecord) : RecData :=
  { id := some r.id, created_at := some r.created_at,
    updated_at := some r.updated_at, vers := some r.vers,
    device := some r.device, status := r.status, fields := r.fields }

/-- Key-level merge of two open attribute maps, as the object spread
does: keys of the base in their order with patched values, then the new
keys of the patch in their order. -/
def mergeFields (base patch : List (String × String)) : List (String × String) :=
  base.map (fun kv => match patch.lookup kv.1 with
    | some v => (kv.1, v)
    | none => kv)
  ++ patch.filter (fun kv => (base.lookup kv.1).isNone)

/-- Spread-merge of two partial records: patch keys override base keys. -/
def mergeData (base patch : RecData) : RecData :=
  { id := oget patch.id base.id
    created_at := oget patch.created_at base.created_at
    updated_at := oget patch.updated_at base.updated_at
    vers := oget patch.vers base.vers
    device := oget patch.device base.device
    status := oget patch.status base.status
    fields := mergeFields base.fields patch.fields }

/-- The id string produced by the n-th call of generateId. -/
def genId (n : Nat) : String := "gen_" ++ toString n

/-- A whole local or remote database: table name to list of rows. -/
abbrev Store := String → List DataRecord

def storeSet (db : Store) (t : String) (l : List DataRecord) : Store :=
  fun x => if x = t then l else db x

def emptyStore : Store := fun _ => []

def statusStr : SyncState → String
  | .pending => "pending"
  | .synced => "synced"
  | .conflict => "conflict"

/-- Reading a named attribute of a record, metadata first, then the open
business attributes; values are uniformly read back as strings. -/
def DataRecord.getField (r : DataRecord) (k : String) : Option String :=
  if k = "id" then some r.id
  else if k = "created_at" then some (toString r.created_at)
  else if k = "updated_at" then some (toString r.updated_at)
  else if k = "_version" then some (toString r.vers)
  else if k = "_device_id" then some r.device
  else if k = "_sync_status" then r.status.map statusStr
  else r.fields.lookup k

inductive SortOrder where
  | asc
  | desc
  deriving DecidableEq, Repr

/-- QueryOptions of types.ts (where is a Lean keyword, hence whereEq;
order is ord). -/
structure QueryOptions where
  orderBy : Option String := none
  ord : Option SortOrder := none
  limit : Option Nat := none
  offset : Option Nat := none
  whereEq : Option (List (String × String)) := none
  deriving DecidableEq, Repr

/-- The strict less-than of the JS sort comparator on possibly absent
values: any comparison against undefined is false. -/
def optLt (a b : Option String) : Bool :=
  match a, b with
  | some x, some y => decide (x < y)
  | _, _ => false

namespace IndexedDBAdapter

/-- The fixed table set created by the schema upgrade. -/
def TABLES : List String :=
  ["clients", "products", "product_components", "projects",
   "project_products", "transactions", "stock_movements"]

/-- Secondary indexes created per table. -/
def tableIndexes (t : String) : List String :=
  ["created_at", "updated_at", "_sync_status", "_version"] ++
  (if t = "products" then ["name", "category", "type"]
   else if t = "clients" then ["name", "email"]
   else if t = "projects" then ["client_id", "status", "number"]
   else if t = "product_components" then ["parent_product_id", "component_product_id"]
   else if t = "project_products" then ["project_id", "product_id"]
   else if t = "transactions" then ["type", "date", "project_id"]
   else if t = "stock_movements" then ["product_id", "project_id", "movement_date"]
   else [])

/-- addMetadata of the IndexedDB adapter: stamps id (generated when the
payload has no truthy one), created_at (kept when truthy), updated_at,
bumps the version, sets the device and marks the write pending. -/
def addMetadata (dev : String) (now : Nat) (newId : String) (d : RecData) : DataRecord :=
  { id := jsOrStr d.id newId
    created_at := jsOrNat d.created_at now
    updated_at := now
    vers := d.vers.getD 0 + 1
    device := dev
    status := some SyncState.pending
    fields := d.fields }

/-- store.get on one table. -/
def getTbl (tbl : List DataRecord) (id : String) : Option DataRecord :=
  tbl.find? (fun r => r.id == id)

/-- create: stamp metadata, then store.add, which rejects a duplicate
primary key. -/
def createTbl (dev : String) (now : Nat) (newId : String) (table : String)
    (tbl : List DataRecord) (d : RecData) : Except String (DataRecord × List DataRecord) :=
  let r := addMetadata dev now newId d
  if tbl.any (fun x => x.id == r.id) then
    .error ("ConstraintError in " ++ table)
  else
    .ok (r, tbl ++ [r])

/-- store.put: replace the row with the same key, or append. -/
def putById (tbl : List DataRecord) (r : DataRecord) : List DataRecord :=
  if tbl.any (fun x => x.id == r.id) then
    tbl.map (fun x => if x.id == r.id then r else x)
  else tbl ++ [r]

/-- update: read the existing record, fail when absent, spread-merge the
patch over it with the explicit id, re-stamp metadata, store.put. -/
def updateTbl (dev : String) (now : Nat) (newId : String) (table : String)
    (tbl : List DataRecord) (id : String) (patch : RecData) :
    Except String (DataRecord × List DataRecord) :=
  match getTbl tbl id with
  | none => .error ("Record with id " ++ id ++ " not found in " ++ table)
  | some existing =>
    let merged := { mergeData existing.toData patch with id := some id }
    let updated := addMetadata dev now newId merged
    .ok (updated, putById tbl updated)

/-- store.delete by key (succeeds also when the key is absent). -/
def deleteTbl (tbl : List DataRecord) (id : String) : List DataRecord :=
  tbl.filter (fun x => !(x.id == id))

/-- store.getAll returns the rows in primary-key order. -/
def getAllTbl (tbl : List DataRecord) : List DataRecord :=
  tbl.insertionSort (fun a b => a.id ≤ b.id)

def sortByField (ob : String) (o : SortOrder) (l : List DataRecord) : List DataRecord :=
  match o with
  | .asc => l.insertionSort (fun a b => optLt (b.getField ob) (a.getField ob) = false)
  | .desc => l.insertionSort (fun a b => optLt (a.getField ob) (b.getField ob) = false)

/-- query of the IndexedDB adapter: index prefetch on the first where
key when that field is indexed, then conjunctive equality filtering,
then the stable sort, then the two falsy-guarded slices (offset first,
limit second). -/
def queryTbl (table : String) (tbl : List DataRecord) (opts : QueryOptions) :
    List DataRecord :=
  let base :=
    match opts.whereEq with
    | some ((k, v) :: _) =>
      if (tableIndexes table).contains k then
        getAllTbl (tbl.filter (fun r => r.getField k == some v))
      else getAllTbl tbl
    | some [] => getAllTbl tbl
    | none => getAllTbl tbl
  let afterWhere :=
    match opts.whereEq with
    | some w => base.filter (fun r => w.all (fun kv => r.getField kv.1 == some kv.2))
    | none => base
  let afterOrder :=
    match opts.orderBy with
    | some ob => if ob = "" then afterWhere
                 else sortByField ob (opts.ord.getD .asc) afterWhere
    | none => afterWhere
  let afterOffset :=
    match opts.offset with
    | some o => if o = 0 then afterOrder else afterOrder.drop o
    | none => afterOrder
  match opts.limit with
  | some l => if l = 0 then afterOffset else afterOffset.take l
  | none => afterOffset

/-- list delegates to query with `options || \x7b\x7d`. -/
def listTbl (table : String) (tbl : List DataRecord) (opts : Option QueryOptions) :
    List DataRecord :=
  queryTbl table tbl (opts.getD {})

/-- bulkCreate: stamp every payload, add all rows in one transaction; a
duplicate key aborts the transaction, committing nothing. -/
def bulkCreateTbl (dev : String) (now : Nat) (base : Nat) (table : String)
    (tbl : List DataRecord) (ds : List RecData) :
    Except String (List DataRecord × List DataRecord) :=
  let records := ds.enum.map (fun p => addMetadata dev now (genId (base + p.1)) p.2)
  if ((tbl ++ records).map (fun r => r.id)).Nodup then .ok (records, tbl ++ records)
  else .error ("ConstraintError in " ++ table)

/-- export: list every requested table (the fixed set by default). -/
def exportTables (db : Store) (tables : Option (List String)) :
    List (String × List DataRecord) :=
  (tables.getD TABLES).map (fun t => (t, listTbl t (db t) none))

/-- The import method: for each entry naming a fixed table, clear the
table and bulk-insert the supplied records (replace, not merge). -/
def importTables (dev : String) (now : Nat) (ctr : Nat) (db : Store) :
    List (String × List RecData) → Except String Store
  | [] => .ok db
  | (t, recs) :: rest =>
    if TABLES.contains t then
      let db1 := storeSet db t []
      if recs.isEmpty then importTables dev now ctr db1 rest
      else
        match bulkCreateTbl dev now ctr t [] recs with
        | .error e => .error e
        | .ok (_, tblNew) =>
          importTables dev now (ctr + recs.length) (storeSet db1 t tblNew) rest
    else importTables dev now ctr db rest

end IndexedDBAdapter

namespace SupabaseAdapter

/-- addMetadata of the Supabase adapter: refresh updated_at, bump the
version, set the device and mark the row synced (no id or created_at
defaulting here). -/
def addMetadata (dev : String) (now : Nat) (d : RecData) : RecData :=
  { d with updated_at := some now, vers := some (d.vers.getD 0 + 1),
           device := some dev, status := some SyncState.synced }

/-- Applying an update payload to one row: supplied columns override the
stored ones. -/
def applyRow (row : DataRecord) (d : RecData) : DataRecord :=
  { id := d.id.getD row.id
    created_at := d.created_at.getD row.created_at
    updated_at := d.updated_at.getD row.updated_at
    vers := d.vers.getD row.vers
    device := d.device.getD row.device
    status := oget d.status row.status
    fields := mergeFields row.fields d.fields }

/-- Materialising an insert payload as a row. -/
def rowOfData (d : RecData) : DataRecord :=
  { id := d.id.getD "", created_at := d.created_at.getD 0,
    updated_at := d.updated_at.getD 0, vers := d.vers.getD 0,
    device := d.device.getD "", status := d.status, fields := d.fields }

/-- create: insert the stamped payload; a duplicate key violates the
primary-key constraint. -/
def createTbl (dev : String) (now : Nat) (rows : List DataRecord) (d : RecData) :
    Except String (DataRecord × List DataRecord) :=
  let row := rowOfData (addMetadata dev now d)
  if rows.any (fun x => x.id == row.id) then
    .error "duplicate key value violates unique constraint"
  else .ok (row, rows ++ [row])

/-- update ... eq id ... single: rewrite the matching row; single fails
when no row matches. -/
def updateTbl (dev : String) (now : Nat) (rows : List DataRecord) (id : String)
    (d : RecData) : Except String (DataRecord × List DataRecord) :=
  let upd := addMetadata dev now d
  match rows.find? (fun r => r.id == id) with
  | none => .error "JSON object requested, multiple (or no) rows returned"
  | some row =>
    .ok (applyRow row upd, rows.map (fun r => if r.id == id then applyRow r upd else r))

/-- delete ... eq id (succeeds also when nothing matches). -/
def deleteTbl (rows : List DataRecord) (id : String) : List DataRecord :=
  rows.filter (fun r => !(r.id == id))

/-- list with no options: select star over the whole table. -/
def listAll (rows : List DataRecord) : List DataRecord := rows

end SupabaseAdapter

inductive Resolution where
  | rlocal
  | rremote
  | rmanual
  deriving DecidableEq, Repr

/-- The ConflictResolution entries kept in the conflicts map; note that
no table name is stored. -/
structure ConflictEntry where
  record : DataRecord
  localRec : DataRecord
  remoteRec : DataRecord
  deriving DecidableEq, Repr

abbrev Conflicts := List (String × ConflictEntry)

inductive OpKind where
  | createOp
  | updateOp
  | deleteOp
  deriving DecidableEq, Repr

/-- A queued Pending Operation of the SyncManager. -/
structure SyncOperation where
  id : String
  table : String
  operation : OpKind
  data : RecData
  timestamp : Nat
  retries : Nat
  deriving DecidableEq, Repr

/-- The environment a reconciliation pass runs in: the clock, the device
id, and the network outcomes (which push replays and which table pulls
throw). -/
structure SyncEnv where
  now : Nat
  dev : String
  pushFails : SyncOperation → Bool
  tableFails : String → Bool

/-- The SyncManager state (counter threads the generateId source). -/
structure SyncMgr where
  isOnline : Bool
  isSyncing : Bool
  conflicts : Conflicts
  pendingOps : List SyncOperation
  lastSyncTime : Option Nat
  strategy : SyncStrategy
  localDb : Store
  remote : Option Store
  counter : Nat

namespace SyncManager

/-- The timestamp resolveConflict reads from one side:
updated_at || created_at. -/
def effTime (r : DataRecord) : Nat :=
  if r.updated_at = 0 then r.created_at else r.updated_at

def lookupConflict (cs : Conflicts) (cid : String) : Option ConflictEntry :=
  (cs.find? (fun e => e.1 == cid)).map (fun e => e.2)

/-- Map.set: overwrite the entry of an existing key, append otherwise. -/
def setConflict (cs : Conflicts) (cid : String) (c : ConflictEntry) : Conflicts :=
  if cs.any (fun e => e.1 == cid) then
    cs.map (fun e => if e.1 == cid then (cid, c) else e)
  else cs ++ [(cid, c)]

def removeConflict (cs : Conflicts) (cid : String) : Conflicts :=
  cs.filter (fun e => !(e.1 == cid))

/-- The conflict key built in the manual branch. -/
def conflictId (l : DataRecord) (now : Nat) : String :=
  l.id ++ "_" ++ toString now

/-- resolveConflict: the policy dispatch of the SyncManager; the manual
fall-through records a Conflict Record and decides rmanual. -/
def resolveConflict (strategy : SyncStrategy) (now : Nat) (cs : Conflicts)
    (l r : DataRecord) : Resolution × Conflicts :=
  match strategy with
  | .localWins => (.rlocal, cs)
  | .remoteWins => (.rremote, cs)
  | .newestWins => (if effTime l > effTime r then .rlocal else .rremote, cs)
  | .manual =>
    (.rmanual, setConflict cs (conflictId l now)
      { record := l, localRec := l, remoteRec := r })

/-- Replaying one queued operation against the remote rows of its table. -/
def applyRemoteOp (dev : String) (now : Nat) (rows : List DataRecord)
    (op : SyncOperation) : Except String (List DataRecord) :=
  match op.operation with
  | .createOp => (SupabaseAdapter.createTbl dev now rows op.data).map (fun p => p.2)
  | .updateOp =>
    (SupabaseAdapter.updateTbl dev now rows (op.data.id.getD "") op.data).map (fun p => p.2)
  | .deleteOp => .ok (SupabaseAdapter.deleteTbl rows (op.data.id.getD ""))

/-- One push attempt: the network may fail outright, otherwise the replay
is applied; some gives the new remote database on success. -/
def attemptOp (env : SyncEnv) (rdb : Store) (op : SyncOperation) : Option Store :=
  if env.pushFails op then none
  else match applyRemoteOp env.dev env.now (rdb op.table) op with
    | .ok rows => some (storeSet rdb op.table rows)
    | .error _ => none

/-- The push loop over the copied queue: collects the ids marked for
removal, the in-place-bumped queue entries, and the final remote
database.  Every queued operation is attempted; a failure only bumps
the retry counter of its own entry. -/
def pushLoop (env : SyncEnv) : List SyncOperation → Store →
    List String × List SyncOperation × Store
  | [], rdb => ([], [], rdb)
  | op :: rest, rdb =>
    match attemptOp env rdb op with
    | some rdb1 =>
      let r := pushLoop env rest rdb1
      (op.id :: r.1, op :: r.2.1, r.2.2)
    | none =>
      let op1 : SyncOperation := { op with retries := op.retries + 1 }
      let r := pushLoop env rest rdb
      (if op1.retries > 3 then op.id :: r.1 else r.1, op1 :: r.2.1, r.2.2)

/-- processPendingOperations: run the loop, then drop every queue entry
whose id was collected (successes and over-retried failures alike). -/
def processPendingOperations (env : SyncEnv) (rdb : Store)
    (queue : List SyncOperation) : List SyncOperation × Store :=
  let r := pushLoop env queue rdb
  ((r.2.1).filter (fun op => !(r.1.contains op.id)), r.2.2)

/-- The per-table state the pull pass threads along. -/
structure PullState where
  localTbl : List DataRecord
  remoteTbl : List DataRecord
  conflicts : Conflicts
  counter : Nat
  deriving Repr

/-- The body of the loop over the fetched remote records: insert locally
when the id is unknown in the fetched local snapshot, otherwise resolve
and propagate the winner (rmanual writes nothing). -/
def pullStep (strategy : SyncStrategy) (dev : String) (now : Nat) (table : String)
    (origLocal : List DataRecord) (st : PullState) (r : DataRecord) :
    Except String PullState :=
  match origLocal.find? (fun x => x.id == r.id) with
  | none =>
    match IndexedDBAdapter.createTbl dev now (genId st.counter) table st.localTbl r.toData with
    | .error e => .error e
    | .ok p => .ok { st with localTbl := p.2, counter := st.counter + 1 }
  | some l =>
    let rc := resolveConflict strategy now st.conflicts l r
    match rc.1 with
    | .rremote =>
      match IndexedDBAdapter.updateTbl dev now (genId st.counter) table st.localTbl r.id r.toData with
      | .error e => .error e
      | .ok p => .ok { st with localTbl := p.2, conflicts := rc.2, counter := st.counter + 1 }
    | .rlocal =>
      match SupabaseAdapter.updateTbl dev now st.remoteTbl l.id l.toData with
      | .error e => .error e
      | .ok p => .ok { st with remoteTbl := p.2, conflicts := rc.2 }
    | .rmanual => .ok { st with conflicts := rc.2 }

/-- Phase 1 of the per-table pull: fold pullStep over the fetched remote
records; an error is caught at the table level, keeping the state already
committed and skipping the rest of the table (false marks the abort). -/
def pullPhase1 (strategy : SyncStrategy) (dev : String) (now : Nat) (table : String)
    (origLocal : List DataRecord) : List DataRecord → PullState → PullState × Bool
  | [], st => (st, true)
  | r :: rs, st =>
    match pullStep strategy dev now table origLocal st r with
    | .error _ => (st, false)
    | .ok st1 => pullPhase1 strategy dev now table origLocal rs st1

/-- The deletion test of the pull phase: the local id is absent remotely
and the local record was marked synced. -/
def pullDeleteCond (remoteIds : List String) (r : DataRecord) : Bool :=
  !(remoteIds.contains r.id) && decide (r.status = some SyncState.synced)

/-- Phase 2 of the per-table pull: honor remote deletions for previously
synced local records. -/
def pullPhase2 (origLocal : List DataRecord) (remoteIds : List String)
    (tbl : List DataRecord) : List DataRecord :=
  origLocal.foldl
    (fun acc lr => if pullDeleteCond remoteIds lr then
        acc.filter (fun x => !(x.id == lr.id))
      else acc) tbl

/-- One table of syncFromRemote: fetch both sides, run both loop phases;
a mid-table error skips the deletion loop (the catch around the table). -/
def pullTable (strategy : SyncStrategy) (dev : String) (now : Nat) (table : String)
    (st : PullState) : PullState :=
  let origLocal := IndexedDBAdapter.listTbl table st.localTbl none
  let remotes := SupabaseAdapter.listAll st.remoteTbl
  let res := pullPhase1 strategy dev now table origLocal remotes st
  if res.2 then
    { res.1 with localTbl := pullPhase2 origLocal (remotes.map (fun r => r.id)) res.1.localTbl }
  else res.1

/-- syncFromRemote: pull each fixed table independently; a failing remote
fetch for one table is caught and the remaining tables proceed. -/
def syncFromRemote (env : SyncEnv) (m : SyncMgr) : SyncMgr :=
  match m.remote with
  | none => m
  | some rdb0 =>
    let step := fun (acc : Store × Store × Conflicts × Nat) (t : String) =>
      if env.tableFails t then acc
      else
        let st := pullTable m.strategy env.dev env.now t
          { localTbl := acc.1 t, remoteTbl := acc.2.1 t,
            conflicts := acc.2.2.1, counter := acc.2.2.2 }
        (storeSet acc.1 t st.localTbl, storeSet acc.2.1 t st.remoteTbl,
         st.conflicts, st.counter)
    let r := IndexedDBAdapter.TABLES.foldl step (m.localDb, rdb0, m.conflicts, m.counter)
    { m with localDb := r.1, remote := some r.2.1, conflicts := r.2.2.1, counter := r.2.2.2 }

/-- triggerSync: the guarded reconciliation pass.  The guard returns at
once while a pass is in flight, while offline, or with no remote; the
pass itself pushes then pulls, stamps the last-sync time, and the
finally clause clears the syncing flag.  The boolean reports whether a
pass was started. -/
def triggerSync (env : SyncEnv) (m : SyncMgr) : SyncMgr × Bool :=
  match m.remote with
  | none => (m, false)
  | some rdb =>
    if m.isSyncing || !m.isOnline then (m, false)
    else
      let pushed := processPendingOperations env rdb m.pendingOps
      let m1 := { m with isSyncing := true, pendingOps := pushed.1,
                         remote := some pushed.2 }
      let m2 := syncFromRemote env m1
      ({ m2 with lastSyncTime := some env.now, isSyncing := false }, true)

inductive ManualChoice where
  | mlocal
  | mremote
  deriving DecidableEq, Repr

/-- resolveConflictManually: look the conflict up, compute the resolved
value, then write it through both adapters against the literal table
name unknown_table, and discard the conflict; any write error propagates
before the conflict is removed. -/
def resolveConflictManually (env : SyncEnv) (m : SyncMgr) (cid : String)
    (choice : ManualChoice) (customData : Option DataRecord) :
    Except String SyncMgr :=
  match lookupConflict m.conflicts cid with
  | none => .error ("Conflict " ++ cid ++ " not found")
  | some c =>
    let resolvedData :=
      match customData with
      | some d => d
      | none => match choice with
        | .mlocal => c.localRec
        | .mremote => c.remoteRec
    if m.conflicts.any (fun e => e.2.record.id == c.record.id) then
      match IndexedDBAdapter.updateTbl env.dev env.now (genId m.counter) "unknown_table"
          (m.localDb "unknown_table") c.record.id resolvedData.toData with
      | .error e => .error e
      | .ok p =>
        let m1 := { m with localDb := storeSet m.localDb "unknown_table" p.2,
                           counter := m.counter + 1 }
        match m1.remote with
        | none => .ok { m1 with conflicts := removeConflict m1.conflicts cid }
        | some rdb =>
          match SupabaseAdapter.updateTbl env.dev env.now (rdb "unknown_table")
              c.record.id resolvedData.toData with
          | .error e => .error e
          | .ok q =>
            .ok { m1 with remote := some (storeSet rdb "unknown_table" q.2),
                          conflicts := removeConflict m1.conflicts cid }
    else .ok m

end SyncManager

inductive StorageProvider where
  | localProv
  | supabaseProv
  | firebaseProv
  | customProv
  deriving DecidableEq, Repr

/-- The persisted configuration of the Storage Manager. -/
structure StorageConfig where
  provider : StorageProvider
  autoSync : Bool
  syncInterval : Option Nat
  syncStrategy : SyncStrategy
  deriving DecidableEq, Repr

/-- The Storage Manager: the configuration, its nullable remote adapter
(whose store the Sync Manager shares), and the Sync Manager. -/
structure StorageManagerState where
  config : StorageConfig
  remoteAdapter : Option Store
  syncMgr : SyncMgr

/-- sync of the Storage Manager: a Configuration error when no remote is
active, otherwise one triggered pass; the state component of the result
is what the manager holds afterwards. -/
def StorageManager.sync (env : SyncEnv) (m : StorageManagerState) :
    Except String Unit × StorageManagerState :=
  match m.remoteAdapter with
  | none => (.error "Remote adapter not configured. Enable cloud sync first.", m)
  | some _ => (.ok (), { m with syncMgr := (SyncManager.triggerSync env m.syncMgr).1 })

/-
Shared sample data used by the concrete witnesses below.
-/

def envNoFail : SyncEnv :=
  { now := 0, dev := "dev", pushFails := fun _ => false, tableFails := fun _ => false }

def recA : DataRecord :=
  { id := "a", created_at := 1, updated_at := 1, vers := 3, device := "d",
    status := some SyncState.pending, fields := [("name", "x")] }

def patchLowVers : RecData := { vers := some 1 }

def recA2 : DataRecord :=
  { id := "a", created_at := 1, updated_at := 10, vers := 2, device := "d",
    status := some SyncState.pending, fields := [("name", "x")] }

def patchName : RecData := { fields := [("name", "y")] }

def recA3 : DataRecord :=
  { id := "a", created_at := 1, updated_at := 10, vers := 4, device := "d",
    status := some SyncState.pending, fields := [("name", "y")] }

def recR1L : DataRecord :=
  { id := "r1", created_at := 1, updated_at := 4, vers := 2, device := "devA",
    status := some SyncState.pending, fields := [("name", "local")] }

def recR1R : DataRecord :=
  { id := "r1", created_at := 1, updated_at := 5, vers := 3, device := "devB",
    status := some SyncState.synced, fields := [("name", "remote")] }

def pullSt0 : SyncManager.PullState :=
  { localTbl := [recR1L], remoteTbl := [recR1R], conflicts := [], counter := 0 }

/-- Claim C10: in the IndexedDB adapter's query (and list, which
delegates to it), a limit of 0 and an offset of 0 are treated the same
as the option being absent (falsy checks): limit 0 returns all matching
records, offset 0 skips nothing, and when both are given, offset is
applied before limit. -/
theorem claim_c10_query_falsy_pagination :
    (∀ table tbl ob od off w,
      IndexedDBAdapter.queryTbl table tbl
        { orderBy := ob, ord := od, limit := some 0, offset := off, whereEq := w } =
      IndexedDBAdapter.queryTbl table tbl
        { orderBy := ob, ord := od, limit := none, offset := off, whereEq := w }) ∧
    (∀ table tbl ob od lim w,
      IndexedDBAdapter.queryTbl table tbl
        { orderBy := ob, ord := od, limit := lim, offset := some 0, whereEq := w } =
      IndexedDBAdapter.queryTbl table tbl
        { orderBy := ob, ord := od, limit := lim, offset := none, whereEq := w }) ∧
    (∀ table tbl ob od o l w, o ≠ 0 → l ≠ 0 →
      IndexedDBAdapter.queryTbl table tbl
        { orderBy := ob, ord := od, limit := some l, offset := some o, whereEq := w } =
      ((IndexedDBAdapter.queryTbl table tbl
        { orderBy := ob, ord := od, limit := none, offset := none, whereEq := w }).drop o).take l) ∧
    (∀ table tbl opts,
      IndexedDBAdapter.listTbl table tbl (some opts) =
      IndexedDBAdapter.queryTbl table tbl opts) := by
  refine ⟨fun _ _ _ _ _ _ => rfl, fun _ _ _ _ _ _ => rfl, ?_, fun _ _ _ => rfl⟩
  intro table tbl ob od o l w ho hl
  simp [IndexedDBAdapter.queryTbl, ho, hl]

/-- Claim C10 witness: concrete pagination behavior. -/
theorem claim_c10_query_falsy_pagination_witness :
    IndexedDBAdapter.queryTbl "clients" [recR1L, recA]
      { limit := some 1, offset := some 1 } =
    ((IndexedDBAdapter.queryTbl "clients" [recR1L, recA] {}).drop 1).take 1 :=
  claim_c10_query_falsy_pagination.2.2.1 "clients" [recR1L, recA] none none 1 1 none
    (by decide) (by decide)

/-- Claim C7: calling sync on the Storage Manager while no remote
adapter is active fails with the Configuration error and the state —
local store, pending queue, configuration — is returned unchanged. -/
theorem claim_c7_sync_without_remote (env : SyncEnv) (m : StorageManagerState)
    (h : m.remoteAdapter = none) :
    StorageManager.sync env m =
      (.error "Remote adapter not configured. Enable cloud sync first.", m) := by
  unfold StorageManager.sync
  rw [h]

def clientsFive : List DataRecord :=
  [{ id := "c1", created_at := 1, updated_at := 1, vers := 1, device := "d",
     status := some SyncState.pending, fields := [("name", "n1")] },
   { id := "c2", created_at := 2, updated_at := 2, vers := 1, device := "d",
     status := some SyncState.pending, fields := [("name", "n2")] },
   { id := "c3", created_at := 3, updated_at := 3, vers := 1, device := "d",
     status := some SyncState.pending, fields := [("name", "n3")] },
   { id := "c4", created_at := 4, updated_at := 4, vers := 1, device := "d",
     status := some SyncState.pending, fields := [("name", "n4")] },
   { id := "c5", created_at := 5, updated_at := 5, vers := 1, device := "d",
     status := some SyncState.pending, fields := [("name", "n5")] }]

def mgrLocalOnly : StorageManagerState :=
  { config := { provider := .localProv, autoSync := false, syncInterval := none,
                syncStrategy := .newestWins },
    remoteAdapter := none,
    syncMgr := { isOnline := true, isSyncing := false, conflicts := [],
                 pendingOps := [], lastSyncTime := none, strategy := .newestWins,
                 localDb := fun t => if t = "clients" then clientsFive else [],
                 remote := none, counter := 0 } }

/-- Claim C7 witness: five records in clients, no remote configured. -/
theorem claim_c7_sync_without_remote_witness :
    mgrLocalOnly.remoteAdapter = none ∧
    (mgrLocalOnly.syncMgr.localDb "clients").length = 5 ∧
    StorageManager.sync envNoFail mgrLocalOnly =
      (.error "Remote adapter not configured. Enable cloud sync first.", mgrLocalOnly) :=
  ⟨rfl, rfl, claim_c7_sync_without_remote envNoFail mgrLocalOnly rfl⟩

/-- Claim C6: at most one reconciliation pass is in flight — triggerSync
while the syncing flag is set (or offline, or with no remote) returns at
once without starting a pass and changes nothing, and whenever a pass
does run (for any outcomes of the per-operation and per-table failure
oracles) the syncing flag ends cleared. -/
theorem claim_c6_mutual_exclusion :
    (∀ env m, m.isSyncing = true → SyncManager.triggerSync env m = (m, false)) ∧
    (∀ env m, m.remote = none → SyncManager.triggerSync env m = (m, false)) ∧
    (∀ env m, m.isOnline = false → SyncManager.triggerSync env m = (m, false)) ∧
    (∀ env m, m.isSyncing = false →
      ((SyncManager.triggerSync env m).1).isSyncing = false) := by
  refine ⟨?_, ?_, ?_, ?_⟩
  · intro env m h
    unfold SyncManager.triggerSync
    cases hr : m.remote with
    | none => rfl
    | some rdb => simp [h]
  · intro env m h
    unfold SyncManager.triggerSync
    rw [h]
  · intro env m h
    unfold SyncManager.triggerSync
    cases hr : m.remote with
    | none => rfl
    | some rdb => simp [h]
  · intro env m h
    unfold SyncManager.triggerSync
    cases hr : m.remote with
    | none => simpa using h
    | some rdb =>
      cases ho : m.isOnline with
      | false => simp [h, ho]
      | true => simp [h, ho]

def mgrBusy : SyncMgr :=
  { isOnline := true, isSyncing := true, conflicts := [], pendingOps := [],
    lastSyncTime := none, strategy := .newestWins, localDb := emptyStore,
    remote := some emptyStore, counter := 0 }

def mgrIdle : SyncMgr :=
  { isOnline := true, isSyncing := false, conflicts := [], pendingOps := [],
    lastSyncTime := none, strategy := .newestWins, localDb := emptyStore,
    remote := some emptyStore, counter := 0 }

/-- Claim C6 witness: a trigger while busy is a no-op; a pass from idle
ends with the flag cleared. -/
theorem claim_c6_mutual_exclusion_witness :
    (mgrBusy.isSyncing = true ∧
      SyncManager.triggerSync envNoFail mgrBusy = (mgrBusy, false)) ∧
    (mgrIdle.isSyncing = false ∧
      ((SyncManager.triggerSync envNoFail mgrIdle).1).isSyncing = false) :=
  ⟨⟨rfl, claim_c6_mutual_exclusion.1 envNoFail mgrBusy rfl⟩,
   ⟨rfl, claim_c6_mutual_exclusion.2.2.2 envNoFail mgrIdle rfl⟩⟩

def conflictC1 : ConflictEntry :=
  { record := recR1L, localRec := recR1L, remoteRec := recR1R }

def mgrC1 : SyncMgr :=
  { isOnline := true, isSyncing := false, conflicts := [("c1", conflictC1)],
    pendingOps := [], lastSyncTime := none, strategy := .manual,
    localDb := fun t => if t = "clients" then [recR1L] else [],
    remote := some (fun t => if t = "clients" then [recR1R] else []),
    counter := 0 }

/-- Claim C1: resolveConflictManually does not resolve against the table
the conflict belongs to — with the conflicted record living in clients on
both sides, the resolution writes against the literal table name
unknown_table, fails there, leaves both copies untouched and keeps the
Conflict Record (the update error propagates before the conflict is
removed). -/
theorem claim_c1_manual_resolution_hits_unknown_table :
    SyncManager.resolveConflictManually envNoFail mgrC1 "c1"
      SyncManager.ManualChoice.mlocal none =
      .error "Record with id r1 not found in unknown_table" ∧
    (mgrC1.localDb "clients").map (fun r => r.id) = ["r1"] ∧
    mgrC1.conflicts.map (fun e => e.1) = ["c1"] :=
  ⟨rfl, rfl, rfl⟩

/-- Claim C9 counterexample: an update whose patch carries a smaller
_version (here 1, while the stored record has version 3) succeeds and
stores version 2 — the version does not strictly increase. -/
theorem claim_c9_counterexample :
    IndexedDBAdapter.updateTbl "d" 10 "g" "clients" [recA] "a" patchLowVers =
      .ok (recA2, [recA2]) ∧
    recA.vers = 3 ∧ recA2.vers = 2 ∧ ¬ recA.vers < recA2.vers :=
  ⟨rfl, rfl, rfl, by decide⟩

/-- Claim C9 (amended): a successful local update stores version
(patch version if the patch carries one, else the existing version) + 1
— a strict increase whenever the patch does not supply its own _version
— and sets updated_at to the current clock, which is at least the
previous updated_at whenever the clock has not gone backwards. -/
theorem claim_c9_version_update_rule (dev : String) (now : Nat)
    (newId table id : String) (tbl tbl' : List DataRecord) (patch : RecData)
    (existing r' : DataRecord)
    (hget : IndexedDBAdapter.getTbl tbl id = some existing)
    (hok : IndexedDBAdapter.updateTbl dev now newId table tbl id patch =
      .ok (r', tbl')) :
    r'.vers = patch.vers.getD existing.vers + 1 ∧
    (patch.vers = none → existing.vers < r'.vers) ∧
    r'.updated_at = now ∧
    (existing.updated_at ≤ now → existing.updated_at ≤ r'.updated_at) := by
  unfold IndexedDBAdapter.updateTbl at hok
  rw [hget] at hok
  simp only [Except.ok.injEq, Prod.mk.injEq] at hok
  obtain ⟨hr, ht⟩ := hok
  subst hr
  cases hv : patch.vers with
  | none =>
    simp [IndexedDBAdapter.addMetadata, mergeData, oget, hv, DataRecord.toData]
  | some v =>
    simp [IndexedDBAdapter.addMetadata, mergeData, oget, hv, DataRecord.toData]

/-- Claim C9 witness: an update with a version-free patch bumps 3 to 4
and refreshes updated_at. -/
theorem claim_c9_version_update_rule_witness :
    IndexedDBAdapter.getTbl [recA] "a" = some recA ∧
    IndexedDBAdapter.updateTbl "d" 10 "g" "clients" [recA] "a" patchName =
      .ok (recA3, [recA3]) ∧
    (recA3.vers = patchName.vers.getD recA.vers + 1 ∧
     (patchName.vers = none → recA.vers < recA3.vers) ∧
     recA3.updated_at = 10 ∧
     (recA.updated_at ≤ 10 → recA.updated_at ≤ recA3.updated_at)) :=
  ⟨rfl, rfl,
   claim_c9_version_update_rule "d" 10 "g" "clients" "a" [recA] [recA3]
     patchName recA recA3 rfl rfl⟩

/-- A conflict id absent from the map means no entry carries that key. -/
theorem any_eq_false_of_lookupConflict_none (cs : Conflicts) (cid : String)
    (h : SyncManager.lookupConflict cs cid = none) :
    cs.any (fun e => e.1 == cid) = false := by
  unfold SyncManager.lookupConflict at h
  rw [Option.map_eq_none'] at h
  rw [List.find?_eq_none] at h
  rw [List.any_eq_false]
  exact h

/-- Claim C4: the conflict policy dispatch.  local-wins always decides
local and remote-wins always decides remote, both touching no state;
newest-wins decides remote exactly when the effective remote timestamp
(updated_at falling back to created_at) is at least the local one, so a
tie favors remote; manual decides manual, records exactly one fresh
Conflict Record for the pair, and the pull step for a pair resolved
manually leaves both the local and the remote table contents unchanged. -/
theorem claim_c4_conflict_policy :
    (∀ now cs l r, SyncManager.resolveConflict .localWins now cs l r =
      (Resolution.rlocal, cs)) ∧
    (∀ now cs l r, SyncManager.resolveConflict .remoteWins now cs l r =
      (Resolution.rremote, cs)) ∧
    (∀ now cs l r,
      ((SyncManager.resolveConflict .newestWins now cs l r).1 = Resolution.rremote ↔
        SyncManager.effTime l ≤ SyncManager.effTime r) ∧
      (SyncManager.resolveConflict .newestWins now cs l r).2 = cs) ∧
    (∀ now cs l r,
      (SyncManager.resolveConflict .manual now cs l r).1 = Resolution.rmanual ∧
      (SyncManager.lookupConflict cs (SyncManager.conflictId l now) = none →
        (SyncManager.resolveConflict .manual now cs l r).2 =
          cs ++ [(SyncManager.conflictId l now,
                  { record := l, localRec := l, remoteRec := r })])) ∧
    (∀ dev now table origLocal st l r,
      origLocal.find? (fun x => x.id == r.id) = some l →
      SyncManager.pullStep .manual dev now table origLocal st r =
        .ok { st with conflicts :=
          (SyncManager.resolveConflict .manual now st.conflicts l r).2 }) := by
  refine ⟨fun _ _ _ _ => rfl, fun _ _ _ _ => rfl, ?_, ?_, ?_⟩
  · intro now cs l r
    refine ⟨?_, rfl⟩
    by_cases h : SyncManager.effTime l > SyncManager.effTime r
    · simp only [SyncManager.resolveConflict, if_pos h]
      constructor
      · intro hx
        exact absurd hx (by decide)
      · intro hle
        omega
    · simp only [SyncManager.resolveConflict, if_neg h]
      constructor
      · intro _
        omega
      · intro _
        trivial
  · intro now cs l r
    refine ⟨rfl, ?_⟩
    intro hfresh
    have hany := any_eq_false_of_lookupConflict_none cs _ hfresh
    simp [SyncManager.resolveConflict, SyncManager.setConflict, hany]
  · intro dev now table origLocal st l r hfind
    unfold SyncManager.pullStep
    rw [hfind]
    rfl

/-- Claim C4 witness: concrete records exercising every strategy and the
manual pull step. -/
theorem claim_c4_conflict_policy_witness :
    SyncManager.resolveConflict .localWins 7 [] recR1L recR1R =
      (Resolution.rlocal, []) ∧
    SyncManager.resolveConflict .remoteWins 7 [] recR1L recR1R =
      (Resolution.rremote, []) ∧
    ((SyncManager.resolveConflict .newestWins 7 [] recR1L recR1R).1 =
      Resolution.rremote) ∧
    ((SyncManager.resolveConflict .manual 7 [] recR1L recR1R).2 =
      [(SyncManager.conflictId recR1L 7,
        { record := recR1L, localRec := recR1L, remoteRec := recR1R })]) ∧
    SyncManager.pullStep .manual "d" 7 "clients" [recR1L] pullSt0 recR1R =
      .ok { pullSt0 with conflicts :=
        (SyncManager.resolveConflict .manual 7 [] recR1L recR1R).2 } :=
  ⟨claim_c4_conflict_policy.1 7 [] recR1L recR1R,
   claim_c4_conflict_policy.2.1 7 [] recR1L recR1R,
   (claim_c4_conflict_policy.2.2.1 7 [] recR1L recR1R).1.mpr (by decide),
   (claim_c4_conflict_policy.2.2.2.1 7 [] recR1L recR1R).2 rfl,
   claim_c4_conflict_policy.2.2.2.2 "d" 7 "clients" [recR1L] pullSt0
     recR1L recR1R rfl⟩

/-- Every id the push loop collects belongs to some queued operation. -/
theorem pushLoop_collected_sub (env : SyncEnv) :
    ∀ (queue : List SyncOperation) (rdb : Store) (x : String),
      x ∈ (SyncManager.pushLoop env queue rdb).1 →
      x ∈ queue.map (fun o => o.id) := by
  intro queue
  induction queue with
  | nil =>
    intro rdb x hx
    simp [SyncManager.pushLoop] at hx
  | cons op rest ih =>
    intro rdb x hx
    cases h : SyncManager.attemptOp env rdb op with
    | some rdb1 =>
      rw [SyncManager.pushLoop, h] at hx
      simp only [List.mem_cons] at hx
      rcases hx with hx | hx
      · simp [hx]
      · simp only [List.map_cons, List.mem_cons]
        exact Or.inr (ih rdb1 x hx)
    | none =>
      rw [SyncManager.pushLoop, h] at hx
      by_cases hgt : op.retries + 1 > 3
      · simp only [hgt, if_pos, List.mem_cons] at hx
        rcases hx with hx | hx
        · simp [hx]
        · simp only [List.map_cons, List.mem_cons]
          exact Or.inr (ih rdb x hx)
      · simp only [hgt, if_neg, ite_false] at hx
        simp only [List.map_cons, List.mem_cons]
        exact Or.inr (ih rdb x hx)

/-- A failing operation still within the retry ceiling stays in the
bumped queue with its counter incremented and its id uncollected. -/
theorem pushLoop_fail_kept (env : SyncEnv) :
    ∀ (queue : List SyncOperation) (rdb : Store) (op : SyncOperation),
      (queue.map (fun o => o.id)).Nodup → op ∈ queue →
      env.pushFails op = true → op.retries + 1 ≤ 3 →
      { op with retries := op.retries + 1 } ∈ (SyncManager.pushLoop env queue rdb).2.1 ∧
      op.id ∉ (SyncManager.pushLoop env queue rdb).1 := by
  intro queue
  induction queue with
  | nil =>
    intro rdb op _ hmem
    exact absurd hmem (List.not_mem_nil op)
  | cons h rest ih =>
    intro rdb op hnd hmem hfail hle
    have hnd1 : h.id ∉ rest.map (fun o => o.id) := by
      simp only [List.map_cons, List.nodup_cons] at hnd
      exact hnd.1
    have hnd2 : (rest.map (fun o => o.id)).Nodup := by
      simp only [List.map_cons, List.nodup_cons] at hnd
      exact hnd.2
    rcases List.mem_cons.mp hmem with heq | hmem'
    · subst heq
      have hatt : SyncManager.attemptOp env rdb op = none := by
        unfold SyncManager.attemptOp
        rw [hfail]
        rfl
      rw [SyncManager.pushLoop, hatt]
      have hngt : ¬ op.retries + 1 > 3 := by omega
      constructor
      · simp
      · simp only [hngt, ite_false]
        intro hin
        exact hnd1 (pushLoop_collected_sub env rest rdb op.id hin)
    · have hne : op.id ≠ h.id := by
        intro hx
        apply hnd1
        rw [← hx]
        exact List.mem_map.mpr ⟨op, hmem', rfl⟩
      cases hatt : SyncManager.attemptOp env rdb h with
      | some rdb1 =>
        rw [SyncManager.pushLoop, hatt]
        obtain ⟨ih1, ih2⟩ := ih rdb1 op hnd2 hmem' hfail hle
        constructor
        · exact List.mem_cons_of_mem h ih1
        · intro hin
          rcases List.mem_cons.mp hin with hx | hx
          · exact hne hx
          · exact ih2 hx
      | none =>
        rw [SyncManager.pushLoop, hatt]
        obtain ⟨ih1, ih2⟩ := ih rdb op hnd2 hmem' hfail hle
        constructor
        · exact List.mem_cons_of_mem _ ih1
        · by_cases hgt : h.retries + 1 > 3
          · simp only [hgt, if_pos]
            intro hin
            rcases List.mem_cons.mp hin with hx | hx
            · exact hne hx
            · exact ih2 hx
          · simp only [hgt, ite_false]
            exact ih2

/-- A failing operation beyond the retry ceiling has its id collected
for removal. -/
theorem pushLoop_fail_evicted (env : SyncEnv) :
    ∀ (queue : List SyncOperation) (rdb : Store) (op : SyncOperation),
      op ∈ queue → env.pushFails op = true → 3 < op.retries + 1 →
      op.id ∈ (SyncManager.pushLoop env queue rdb).1 := by
  intro queue
  induction queue with
  | nil =>
    intro rdb op hmem
    exact absurd hmem (List.not_mem_nil op)
  | cons h rest ih =>
    intro rdb op hmem hfail hgt
    rcases List.mem_cons.mp hmem with heq | hmem'
    · subst heq
      have hatt : SyncManager.attemptOp env rdb op = none := by
        unfold SyncManager.attemptOp
        rw [hfail]
        rfl
      rw [SyncManager.pushLoop, hatt]
      simp only [hgt, if_pos]
      exact List.mem_cons_self _ _
    · cases hatt : SyncManager.attemptOp env rdb h with
      | some rdb1 =>
        rw [SyncManager.pushLoop, hatt]
        exact List.mem_cons_of_mem _ (ih rdb1 op hmem' hfail hgt)
      | none =>
        rw [SyncManager.pushLoop, hatt]
        by_cases hg : h.retries + 1 > 3
        · simp only [hg, if_pos]
          exact List.mem_cons_of_mem _ (ih rdb op hmem' hfail hgt)
        · simp only [hg, ite_false]
          exact ih rdb op hmem' hfail hgt

/-- The loop visits every queued operation exactly once: one processed
entry per queue entry, regardless of earlier failures or evictions. -/
theorem pushLoop_length (env : SyncEnv) :
    ∀ (queue : List SyncOperation) (rdb : Store),
      ((SyncManager.pushLoop env queue rdb).2.1).length = queue.length := by
  intro queue
  induction queue with
  | nil =>
    intro rdb
    rfl
  | cons op rest ih =>
    intro rdb
    cases h : SyncManager.attemptOp env rdb op with
    | some rdb1 =>
      rw [SyncManager.pushLoop, h]
      simp [ih rdb1]
    | none =>
      rw [SyncManager.pushLoop, h]
      simp [ih rdb]

/-- Claim C5: a queued Pending Operation whose replay fails has its
retry count incremented and stays in the durable queue while the count
is still at most 3; the 4th consecutive failure (count exceeding 3)
removes it from the queue so it cannot reappear on a later pass; and the
push loop visits every queued operation once per pass, so one eviction
never prevents later operations from being attempted. -/
theorem claim_c5_retry_eviction :
    (∀ env rdb queue (op : SyncOperation),
      (queue.map (fun o => o.id)).Nodup → op ∈ queue →
      env.pushFails op = true → op.retries + 1 ≤ 3 →
      { op with retries := op.retries + 1 } ∈
        (SyncManager.processPendingOperations env rdb queue).1) ∧
    (∀ env rdb queue (op : SyncOperation),
      op ∈ queue → env.pushFails op = true → 3 < op.retries + 1 →
      op.id ∉ ((SyncManager.processPendingOperations env rdb queue).1).map
        (fun o => o.id)) ∧
    (∀ env rdb queue,
      ((SyncManager.pushLoop env queue rdb).2.1).length = queue.length) := by
  refine ⟨?_, ?_, fun env rdb queue => pushLoop_length env queue rdb⟩
  · intro env rdb queue op hnd hmem hfail hle
    obtain ⟨h1, h2⟩ := pushLoop_fail_kept env queue rdb op hnd hmem hfail hle
    unfold SyncManager.processPendingOperations
    apply List.mem_filter.mpr
    refine ⟨h1, ?_⟩
    simp only [Bool.not_eq_true']
    rw [List.contains_eq_any_beq]
    rw [List.any_eq_false]
    intro x hx hbeq
    apply h2
    have hxe : op.id = x := by simpa using hbeq
    rw [hxe]
    exact hx
  · intro env rdb queue op hmem hfail hgt
    have hcol := pushLoop_fail_evicted env queue rdb op hmem hfail hgt
    unfold SyncManager.processPendingOperations
    intro hin
    rcases List.mem_map.mp hin with ⟨x, hx, hxid⟩
    have hxf := List.mem_filter.mp hx
    have hnc : (SyncManager.pushLoop env queue rdb).1.contains x.id = false := by
      simpa using hxf.2
    rw [List.contains_eq_any_beq, List.any_eq_false] at hnc
    exact hnc op.id hcol (by simp [hxid])

def opF1 : SyncOperation :=
  { id := "f1", table := "clients", operation := .updateOp,
    data := recR1L.toData, timestamp := 1, retries := 0 }

def opF4 : SyncOperation :=
  { id := "f4", table := "clients", operation := .createOp,
    data := recA.toData, timestamp := 2, retries := 3 }

def opOk : SyncOperation :=
  { id := "ok1", table := "clients", operation := .createOp,
    data := recA.toData, timestamp := 3, retries := 0 }

def envPush : SyncEnv :=
  { now := 9, dev := "d",
    pushFails := fun op => op.id == "f1" || op.id == "f4",
    tableFails := fun _ => false }

def queue3 : List SyncOperation := [opF1, opF4, opOk]

/-- Claim C5 witness: in one pass over a three-element queue, the op on
its 1st failure stays bumped, the op on its 4th failure is evicted, and
all three entries were processed. -/
theorem claim_c5_retry_eviction_witness :
    (queue3.map (fun o => o.id)).Nodup ∧ opF1 ∈ queue3 ∧ opF4 ∈ queue3 ∧
    envPush.pushFails opF1 = true ∧ envPush.pushFails opF4 = true ∧
    opF1.retries + 1 ≤ 3 ∧ 3 < opF4.retries + 1 ∧
    { opF1 with retries := opF1.retries + 1 } ∈
      (SyncManager.processPendingOperations envPush emptyStore queue3).1 ∧
    opF4.id ∉ ((SyncManager.processPendingOperations envPush emptyStore queue3).1).map
      (fun o => o.id) ∧
    ((SyncManager.pushLoop envPush queue3 emptyStore).2.1).length = 3 :=
  ⟨by decide, by decide, by decide, rfl, rfl, by decide, by decide,
   claim_c5_retry_eviction.1 envPush emptyStore queue3 opF1
     (by decide) (by decide) rfl (by decide),
   claim_c5_retry_eviction.2.1 envPush emptyStore queue3 opF4
     (by decide) rfl (by decide),
   claim_c5_retry_eviction.2.2 envPush emptyStore queue3⟩

/-- What a successful create stores: the stamped record, appended. -/
theorem createTbl_ok {dev : String} {now : Nat} {newId table : String}
    {tbl : List DataRecord} {d : RecData} {r' : DataRecord} {tbl' : List DataRecord}
    (hok : IndexedDBAdapter.createTbl dev now newId table tbl d = .ok (r', tbl')) :
    r' = IndexedDBAdapter.addMetadata dev now newId d ∧ tbl' = tbl ++ [r'] := by
  unfold IndexedDBAdapter.createTbl at hok
  dsimp only at hok
  split at hok
  · exact absurd hok (by simp)
  · simp only [Except.ok.injEq, Prod.mk.injEq] at hok
    refine ⟨hok.1.symm, ?_⟩
    rw [← hok.2, hok.1]

/-- What a successful update stores: the re-stamped merge, put by id. -/
theorem updateTbl_ok {dev : String} {now : Nat} {newId table : String}
    {tbl : List DataRecord} {id : String} {patch : RecData} {r' : DataRecord}
    {tbl' : List DataRecord}
    (hok : IndexedDBAdapter.updateTbl dev now newId table tbl id patch = .ok (r', tbl')) :
    ∃ existing, IndexedDBAdapter.getTbl tbl id = some existing ∧
      r' = IndexedDBAdapter.addMetadata dev now newId
        { mergeData existing.toData patch with id := some id } ∧
      tbl' = IndexedDBAdapter.putById tbl r' := by
  unfold IndexedDBAdapter.updateTbl at hok
  cases hget : IndexedDBAdapter.getTbl tbl id with
  | none =>
    rw [hget] at hok
    exact absurd hok (by simp)
  | some existing =>
    rw [hget] at hok
    dsimp only at hok
    simp only [Except.ok.injEq, Prod.mk.injEq] at hok
    refine ⟨existing, rfl, hok.1.symm, ?_⟩
    rw [← hok.2, hok.1]

/-- Everything in a put result is an old row or the put record. -/
theorem putById_mem {tbl : List DataRecord} {u x : DataRecord}
    (hx : x ∈ IndexedDBAdapter.putById tbl u) : x ∈ tbl ∨ x = u := by
  unfold IndexedDBAdapter.putById at hx
  split at hx
  · rcases List.mem_map.mp hx with ⟨y, hy, hyx⟩
    by_cases hc : y.id == u.id
    · right
      rw [← hyx]
      simp [hc]
    · left
      have : x = y := by
        rw [← hyx]
        simp [hc]
      rw [this]
      exact hy
  · rcases List.mem_append.mp hx with h | h
    · exact Or.inl h
    · right
      simpa using h

/-- What a successful bulkCreate stores: the stamped payloads, appended. -/
theorem bulkCreateTbl_ok {dev : String} {now base : Nat} {table : String}
    {tbl : List DataRecord} {ds : List RecData} {rs tbl' : List DataRecord}
    (hok : IndexedDBAdapter.bulkCreateTbl dev now base table tbl ds = .ok (rs, tbl')) :
    rs = ds.enum.map (fun p => IndexedDBAdapter.addMetadata dev now (genId (base + p.1)) p.2) ∧
    tbl' = tbl ++ rs := by
  unfold IndexedDBAdapter.bulkCreateTbl at hok
  dsimp only at hok
  split at hok
  · simp only [Except.ok.injEq, Prod.mk.injEq] at hok
    refine ⟨hok.1.symm, ?_⟩
    rw [← hok.2, hok.1]
  · exact absurd hok (by simp)

/-- Everything a successful import leaves in the database is either an
untouched pre-existing row or a freshly stamped pending row. -/
theorem importTables_pending {dev : String} {now : Nat} :
    ∀ (data : List (String × List RecData)) (ctr : Nat) (db db' : Store),
      IndexedDBAdapter.importTables dev now ctr db data = .ok db' →
      ∀ t x, x ∈ db' t → x ∈ db t ∨ x.status = some SyncState.pending := by
  intro data
  induction data with
  | nil =>
    intro ctr db db' hok t x hx
    unfold IndexedDBAdapter.importTables at hok
    simp only [Except.ok.injEq] at hok
    rw [hok]
    exact Or.inl hx
  | cons entry rest ih =>
    intro ctr db db' hok t x hx
    obtain ⟨te, recs⟩ := entry
    unfold IndexedDBAdapter.importTables at hok
    by_cases hmem : IndexedDBAdapter.TABLES.contains te
    · rw [if_pos hmem] at hok
      by_cases hemp : recs.isEmpty
      · rw [if_pos hemp] at hok
        rcases ih ctr (storeSet db te []) db' hok t x hx with h | h
        · by_cases hts : t = te
          · subst hts
            simp [storeSet] at h
          · left
            simpa [storeSet, hts] using h
        · exact Or.inr h
      · rw [if_neg hemp] at hok
        cases hbc : IndexedDBAdapter.bulkCreateTbl dev now ctr te [] recs with
        | error e =>
          rw [hbc] at hok
          exact absurd hok (by simp)
        | ok p =>
          rw [hbc] at hok
          obtain ⟨hrs, htbl⟩ := bulkCreateTbl_ok hbc
          rcases ih (ctr + recs.length) (storeSet (storeSet db te []) te p.2) db' hok t x hx with h | h
          · by_cases hts : t = te
            · subst hts
              right
              simp only [storeSet, if_pos rfl] at h
              rw [htbl, hrs] at h
              simp only [List.nil_append] at h
              rcases List.mem_map.mp h with ⟨q, _, hq⟩
              rw [← hq]
              rfl
            · left
              simpa [storeSet, hts] using h
          · exact Or.inr h
    · rw [if_neg hmem] at hok
      exact ih ctr db db' hok t x hx

/-- Everything the pull step leaves in the local table is either an
untouched pre-existing row or a freshly stamped pending row. -/
theorem pullStep_pending {strategy : SyncStrategy} {dev : String} {now : Nat}
    {table : String} {origLocal : List DataRecord} {st st' : SyncManager.PullState}
    {r : DataRecord}
    (hok : SyncManager.pullStep strategy dev now table origLocal st r = .ok st') :
    ∀ x ∈ st'.localTbl, x ∈ st.localTbl ∨ x.status = some SyncState.pending := by
  intro x hx
  unfold SyncManager.pullStep at hok
  cases hfind : origLocal.find? (fun y => y.id == r.id) with
  | none =>
    rw [hfind] at hok
    cases hc : IndexedDBAdapter.createTbl dev now (genId st.counter) table st.localTbl r.toData with
    | error e =>
      rw [hc] at hok
      exact absurd hok (by simp)
    | ok p =>
      rw [hc] at hok
      obtain ⟨hr, htbl⟩ := createTbl_ok hc
      simp only [Except.ok.injEq] at hok
      rw [← hok] at hx
      dsimp only at hx
      rw [htbl] at hx
      rcases List.mem_append.mp hx with h | h
      · exact Or.inl h
      · right
        have : x = p.1 := by simpa using h
        rw [this, hr]
        rfl
  | some l =>
    rw [hfind] at hok
    dsimp only at hok
    cases hres : (SyncManager.resolveConflict strategy now st.conflicts l r).1 with
    | rremote =>
      rw [hres] at hok
      cases hu : IndexedDBAdapter.updateTbl dev now (genId st.counter) table st.localTbl r.id r.toData with
      | error e =>
        rw [hu] at hok
        exact absurd hok (by simp)
      | ok p =>
        rw [hu] at hok
        obtain ⟨existing, _, hr, htbl⟩ := updateTbl_ok hu
        simp only [Except.ok.injEq] at hok
        rw [← hok] at hx
        dsimp only at hx
        rw [htbl] at hx
        rcases putById_mem hx with h | h
        · exact Or.inl h
        · right
          rw [h, hr]
          rfl
    | rlocal =>
      rw [hres] at hok
      cases hu : SupabaseAdapter.updateTbl dev now st.remoteTbl l.id l.toData with
      | error e =>
        rw [hu] at hok
        exact absurd hok (by simp)
      | ok p =>
        rw [hu] at hok
        simp only [Except.ok.injEq] at hok
        rw [← hok] at hx
        exact Or.inl hx
    | rmanual =>
      rw [hres] at hok
      simp only [Except.ok.injEq] at hok
      rw [← hok] at hx
      exact Or.inl hx

/-- Claim C3: every record the IndexedDB adapter writes through create,
update, bulkCreate or import carries _sync_status pending regardless of
the status in the input payload (addMetadata overrides it after the
spread); the pull step inserts remote records through the same path, so
anything it adds locally is pending, and a pending record can never
satisfy the synced deletion condition of the pull phase. -/
theorem claim_c3_local_writes_pending :
    (∀ dev now newId d,
      (IndexedDBAdapter.addMetadata dev now newId d).status = some SyncState.pending) ∧
    (∀ dev now newId table tbl d r' tbl',
      IndexedDBAdapter.createTbl dev now newId table tbl d = .ok (r', tbl') →
      r'.status = some SyncState.pending) ∧
    (∀ dev now newId table tbl id patch r' tbl',
      IndexedDBAdapter.updateTbl dev now newId table tbl id patch = .ok (r', tbl') →
      r'.status = some SyncState.pending) ∧
    (∀ dev now base table tbl ds rs tbl',
      IndexedDBAdapter.bulkCreateTbl dev now base table tbl ds = .ok (rs, tbl') →
      ∀ r ∈ rs, r.status = some SyncState.pending) ∧
    (∀ dev now ctr db data db',
      IndexedDBAdapter.importTables dev now ctr db data = .ok db' →
      ∀ t x, x ∈ db' t → x ∈ db t ∨ x.status = some SyncState.pending) ∧
    (∀ strategy dev now table origLocal st st' r,
      SyncManager.pullStep strategy dev now table origLocal st r = .ok st' →
      ∀ x ∈ st'.localTbl, x ∈ st.localTbl ∨ x.status = some SyncState.pending) ∧
    (∀ rids r, r.status = some SyncState.pending →
      SyncManager.pullDeleteCond rids r = false) := by
  refine ⟨fun _ _ _ _ => rfl, ?_, ?_, ?_, ?_, ?_, ?_⟩
  · intro dev now newId table tbl d r' tbl' hok
    rw [(createTbl_ok hok).1]
    rfl
  · intro dev now newId table tbl id patch r' tbl' hok
    obtain ⟨existing, _, hr, _⟩ := updateTbl_ok hok
    rw [hr]
    rfl
  · intro dev now base table tbl ds rs tbl' hok
    intro r hr
    rw [(bulkCreateTbl_ok hok).1] at hr
    rcases List.mem_map.mp hr with ⟨p, _, hp⟩
    rw [← hp]
    rfl
  · intro dev now ctr db data db' hok
    exact importTables_pending data ctr db db' hok
  · intro strategy dev now table origLocal st st' r hok
    exact pullStep_pending hok
  · intro rids r h
    unfold SyncManager.pullDeleteCond
    rw [h]
    simp

def recR1Rp : DataRecord :=
  { id := "r1", created_at := 1, updated_at := 9, vers := 4, device := "d",
    status := some SyncState.pending, fields := [("name", "remote")] }

/-- Claim C3 witness: stamping a remote payload marked synced stores it
pending, and the stored row never meets the deletion condition. -/
theorem claim_c3_local_writes_pending_witness :
    recR1R.status = some SyncState.synced ∧
    (IndexedDBAdapter.addMetadata "d" 9 "g" recR1R.toData).status =
      some SyncState.pending ∧
    IndexedDBAdapter.createTbl "d" 9 "g" "clients" [] recR1R.toData =
      .ok (recR1Rp, [recR1Rp]) ∧
    recR1Rp.status = some SyncState.pending ∧
    SyncManager.pullDeleteCond [] recR1Rp = false :=
  ⟨rfl,
   claim_c3_local_writes_pending.1 "d" 9 "g" recR1R.toData,
   rfl,
   claim_c3_local_writes_pending.2.1 "d" 9 "g" "clients" [] recR1R.toData
     recR1Rp [recR1Rp] rfl,
   claim_c3_local_writes_pending.2.2.2.2.2.2 [] recR1Rp rfl⟩

/-- The ids of a table's rows. -/
def idsOf (l : List DataRecord) : List String := l.map (fun r => r.id)

/-- list with no options is the key-ordered full table. -/
theorem listTbl_none (table : String) (tbl : List DataRecord) :
    IndexedDBAdapter.listTbl table tbl none = IndexedDBAdapter.getAllTbl tbl := rfl

theorem mem_getAllTbl {tbl : List DataRecord} {x : DataRecord} :
    x ∈ IndexedDBAdapter.getAllTbl tbl ↔ x ∈ tbl :=
  (List.perm_insertionSort _ tbl).mem_iff

theorem idsOf_getAllTbl_perm (tbl : List DataRecord) :
    (idsOf (IndexedDBAdapter.getAllTbl tbl)).Perm (idsOf tbl) :=
  (List.perm_insertionSort _ tbl).map _

/-- Membership in the ids of a put result. -/
theorem idsOf_putById_superset {tbl : List DataRecord} {u : DataRecord} {i : String}
    (hi : i ∈ idsOf tbl) : i ∈ idsOf (IndexedDBAdapter.putById tbl u) := by
  unfold IndexedDBAdapter.putById
  rcases List.mem_map.mp hi with ⟨y, hy, hyi⟩
  split
  · unfold idsOf
    rw [List.map_map]
    by_cases hc : (y.id == u.id) = true
    · have hii : i = u.id := by
        rw [← hyi]
        simpa using hc
      apply List.mem_map.mpr
      refine ⟨y, hy, ?_⟩
      simp only [Function.comp_apply, hc, if_pos]
      rw [hii]
    · apply List.mem_map.mpr
      refine ⟨y, hy, ?_⟩
      simp only [Function.comp_apply, hc, ite_false]
      exact hyi
  · unfold idsOf
    apply List.mem_map.mpr
    exact ⟨y, List.mem_append_left _ hy, hyi⟩

theorem idsOf_putById_subset {tbl : List DataRecord} {u : DataRecord} {i : String}
    (hi : i ∈ idsOf (IndexedDBAdapter.putById tbl u)) : i ∈ idsOf tbl ∨ i = u.id := by
  unfold idsOf at hi
  rcases List.mem_map.mp hi with ⟨y, hy, hyi⟩
  rcases putById_mem hy with h | h
  · exact Or.inl (List.mem_map.mpr ⟨y, h, hyi⟩)
  · right
    rw [← hyi, h]

/-- A row with a different key survives a put untouched. -/
theorem mem_putById_of_ne {tbl : List DataRecord} {u x : DataRecord}
    (hx : x ∈ tbl) (hne : x.id ≠ u.id) : x ∈ IndexedDBAdapter.putById tbl u := by
  unfold IndexedDBAdapter.putById
  split
  · apply List.mem_map.mpr
    refine ⟨x, hx, ?_⟩
    simp [hne]
  · exact List.mem_append_left _ hx

/-- A Supabase update keyed by the payload's own id leaves the table's
id column pointwise unchanged. -/
theorem supabase_updateTbl_ids {dev : String} {now : Nat}
    {rows : List DataRecord} {id : String} {d : RecData} {x : DataRecord}
    {rows' : List DataRecord}
    (hok : SupabaseAdapter.updateTbl dev now rows id d = .ok (x, rows'))
    (hd : d.id = some id) : idsOf rows' = idsOf rows := by
  unfold SupabaseAdapter.updateTbl at hok
  cases hf : rows.find? (fun r => r.id == id) with
  | none =>
    rw [hf] at hok
    exact absurd hok (by simp)
  | some row =>
    rw [hf] at hok
    simp only [Except.ok.injEq, Prod.mk.injEq] at hok
    rw [← hok.2]
    unfold idsOf
    rw [List.map_map]
    apply List.map_congr_left
    intro a _
    simp only [Function.comp_apply]
    by_cases hc : (a.id == id) = true
    · rw [if_pos hc]
      have ha : a.id = id := by simpa using hc
      unfold SupabaseAdapter.applyRow SupabaseAdapter.addMetadata
      dsimp only
      rw [hd]
      simp [ha]
    · rw [if_neg hc]

theorem addMetadata_id {dev : String} {now : Nat} {newId : String} {d : RecData}
    {s : String} (hd : d.id = some s) (hs : s ≠ "") :
    (IndexedDBAdapter.addMetadata dev now newId d).id = s := by
  unfold IndexedDBAdapter.addMetadata
  dsimp only
  rw [hd]
  unfold jsOrStr
  simp [hs]

theorem findRow_of_mem_ids {rows : List DataRecord} {i : String}
    (hi : i ∈ idsOf rows) : ∃ e, rows.find? (fun x => x.id == i) = some e := by
  cases hf : rows.find? (fun x => x.id == i) with
  | none =>
    rw [List.find?_eq_none] at hf
    rcases List.mem_map.mp hi with ⟨y, hy, hyi⟩
    exact absurd (by simp [hyi]) (hf y hy)
  | some e => exact ⟨e, rfl⟩

theorem not_mem_ids_of_find?_none {l : List DataRecord} {i : String}
    (hf : l.find? (fun x => x.id == i) = none) : i ∉ idsOf l := by
  rw [List.find?_eq_none] at hf
  intro hmem
  rcases List.mem_map.mp hmem with ⟨y, hy, hyi⟩
  exact hf y hy (by simp [hyi])

/-- One pull step over a well-formed pair of tables always succeeds, only adds
the remote record's id locally, never drops a local id, and keeps the remote
id column intact. -/
theorem pullStep_analysis {strategy : SyncStrategy} {dev : String} {now : Nat}
    {table : String} {origLocal : List DataRecord} {st : SyncManager.PullState}
    {r : DataRecord}
    (hne : r.id ≠ "")
    (hsup : ∀ i ∈ idsOf origLocal, i ∈ idsOf st.localTbl)
    (hnew : r.id ∈ idsOf st.localTbl → r.id ∈ idsOf origLocal)
    (hrem : r.id ∈ idsOf st.remoteTbl) :
    ∃ st', SyncManager.pullStep strategy dev now table origLocal st r = .ok st' ∧
      (∀ i ∈ idsOf st.localTbl, i ∈ idsOf st'.localTbl) ∧
      (∀ i ∈ idsOf st'.localTbl, i ∈ idsOf st.localTbl ∨ i = r.id) ∧
      idsOf st'.remoteTbl = idsOf st.remoteTbl := by
  unfold SyncManager.pullStep
  cases hfind : origLocal.find? (fun x => x.id == r.id) with
  | none =>
    have hnotin := not_mem_ids_of_find?_none hfind
    have hrid : (IndexedDBAdapter.addMetadata dev now (genId st.counter) r.toData).id = r.id :=
      addMetadata_id rfl hne
    have hany : (st.localTbl.any fun x =>
        x.id == (IndexedDBAdapter.addMetadata dev now (genId st.counter) r.toData).id) = false := by
      rw [List.any_eq_false]
      intro x hx hbeq
      rw [hrid] at hbeq
      have hxi : x.id = r.id := by simpa using hbeq
      exact hnotin (hnew (List.mem_map.mpr ⟨x, hx, hxi⟩))
    have hc : IndexedDBAdapter.createTbl dev now (genId st.counter) table st.localTbl r.toData =
        .ok (IndexedDBAdapter.addMetadata dev now (genId st.counter) r.toData,
             st.localTbl ++ [IndexedDBAdapter.addMetadata dev now (genId st.counter) r.toData]) := by
      unfold IndexedDBAdapter.createTbl
      dsimp only
      rw [hany]
      rfl
    rw [hc]
    refine ⟨_, rfl, ?_, ?_, rfl⟩
    · intro i hi
      unfold idsOf
      rw [List.map_append]
      exact List.mem_append_left _ hi
    · intro i hi
      unfold idsOf at hi
      rw [List.map_append] at hi
      rcases List.mem_append.mp hi with h | h
      · exact Or.inl h
      · right
        rw [← hrid]
        simpa using h
  | some l =>
    have hl : l.id = r.id := by
      have := List.find?_some hfind
      simpa using this
    have hlmem : l ∈ origLocal := List.mem_of_find?_eq_some hfind
    have hin : r.id ∈ idsOf origLocal := List.mem_map.mpr ⟨l, hlmem, hl⟩
    dsimp only
    cases hres : (SyncManager.resolveConflict strategy now st.conflicts l r).1 with
    | rremote =>
      have hidl : r.id ∈ idsOf st.localTbl := hsup _ hin
      obtain ⟨e, hget⟩ := findRow_of_mem_ids hidl
      have hu : IndexedDBAdapter.updateTbl dev now (genId st.counter) table st.localTbl r.id r.toData =
          .ok (IndexedDBAdapter.addMetadata dev now (genId st.counter)
                 { mergeData e.toData r.toData with id := some r.id },
               IndexedDBAdapter.putById st.localTbl
                 (IndexedDBAdapter.addMetadata dev now (genId st.counter)
                   { mergeData e.toData r.toData with id := some r.id })) := by
        unfold IndexedDBAdapter.updateTbl IndexedDBAdapter.getTbl
        rw [hget]
      have huid : (IndexedDBAdapter.addMetadata dev now (genId st.counter)
          { mergeData e.toData r.toData with id := some r.id }).id = r.id :=
        addMetadata_id rfl hne
      rw [hu]
      refine ⟨_, rfl, ?_, ?_, rfl⟩
      · intro i hi
        exact idsOf_putById_superset hi
      · intro i hi
        rcases idsOf_putById_subset hi with h | h
        · exact Or.inl h
        · right
          rw [h, huid]
    | rlocal =>
      have hidr : r.id ∈ idsOf st.remoteTbl := hrem
      rw [← hl] at hidr
      obtain ⟨e, hget⟩ := findRow_of_mem_ids hidr
      have hu : SupabaseAdapter.updateTbl dev now st.remoteTbl l.id l.toData =
          .ok (SupabaseAdapter.applyRow e (SupabaseAdapter.addMetadata dev now l.toData),
               st.remoteTbl.map (fun q => if q.id == l.id then
                 SupabaseAdapter.applyRow q (SupabaseAdapter.addMetadata dev now l.toData) else q)) := by
        unfold SupabaseAdapter.updateTbl
        dsimp only
        rw [hget]
      rw [hu]
      refine ⟨_, rfl, fun i hi => hi, fun i hi => Or.inl hi, ?_⟩
      exact supabase_updateTbl_ids hu rfl
    | rmanual =>
      exact ⟨_, rfl, fun i hi => hi, fun i hi => Or.inl hi, rfl⟩

/-- A local record whose id differs from the processed remote record's
id is untouched by the pull step. -/
theorem pullStep_keeps {strategy : SyncStrategy} {dev : String} {now : Nat}
    {table : String} {origLocal : List DataRecord} {st st' : SyncManager.PullState}
    {r lr : DataRecord}
    (hok : SyncManager.pullStep strategy dev now table origLocal st r = .ok st')
    (hmem : lr ∈ st.localTbl) (hne : r.id ≠ lr.id) (hne2 : r.id ≠ "") :
    lr ∈ st'.localTbl := by
  unfold SyncManager.pullStep at hok
  cases hfind : origLocal.find? (fun y => y.id == r.id) with
  | none =>
    rw [hfind] at hok
    cases hc : IndexedDBAdapter.createTbl dev now (genId st.counter) table st.localTbl r.toData with
    | error e =>
      rw [hc] at hok
      exact absurd hok (by simp)
    | ok p =>
      rw [hc] at hok
      simp only [Except.ok.injEq] at hok
      rw [← hok]
      dsimp only
      rw [(createTbl_ok hc).2]
      exact List.mem_append_left _ hmem
  | some l =>
    rw [hfind] at hok
    dsimp only at hok
    cases hres : (SyncManager.resolveConflict strategy now st.conflicts l r).1 with
    | rremote =>
      rw [hres] at hok
      cases hu : IndexedDBAdapter.updateTbl dev now (genId st.counter) table st.localTbl r.id r.toData with
      | error e =>
        rw [hu] at hok
        exact absurd hok (by simp)
      | ok p =>
        rw [hu] at hok
        simp only [Except.ok.injEq] at hok
        rw [← hok]
        dsimp only
        obtain ⟨existing, _, hr, htbl⟩ := updateTbl_ok hu
        rw [htbl]
        apply mem_putById_of_ne hmem
        rw [hr, addMetadata_id rfl hne2]
        exact fun hx => hne hx.symm
    | rlocal =>
      rw [hres] at hok
      cases hu : SupabaseAdapter.updateTbl dev now st.remoteTbl l.id l.toData with
      | error e =>
        rw [hu] at hok
        exact absurd hok (by simp)
      | ok p =>
        rw [hu] at hok
        simp only [Except.ok.injEq] at hok
        rw [← hok]
        exact hmem
    | rmanual =>
      rw [hres] at hok
      simp only [Except.ok.injEq] at hok
      rw [← hok]
      exact hmem

/-- Phase 1 keeps every local record whose id no remote record carries. -/
theorem pullPhase1_keeps {strategy : SyncStrategy} {dev : String} {now : Nat}
    {table : String} {origLocal : List DataRecord} {lr : DataRecord} :
    ∀ (remotes : List DataRecord) (st : SyncManager.PullState),
      lr ∈ st.localTbl →
      (∀ rr ∈ remotes, rr.id ≠ lr.id ∧ rr.id ≠ "") →
      lr ∈ ((SyncManager.pullPhase1 strategy dev now table origLocal remotes st).1).localTbl := by
  intro remotes
  induction remotes with
  | nil =>
    intro st hmem _
    exact hmem
  | cons r rs ih =>
    intro st hmem hall
    cases hstep : SyncManager.pullStep strategy dev now table origLocal st r with
    | error e =>
      rw [SyncManager.pullPhase1, hstep]
      exact hmem
    | ok st1 =>
      rw [SyncManager.pullPhase1, hstep]
      have h1 := hall r (List.mem_cons_self _ _)
      exact ih st1 (pullStep_keeps hstep hmem h1.1 h1.2)
        (fun rr hrr => hall rr (List.mem_cons_of_mem _ hrr))

/-- Phase 1 never aborts on well-formed tables: with distinct nonempty
remote ids and the fetched snapshot covering the local ids, every step
succeeds and the table loop runs to completion. -/
theorem pullPhase1_ok {strategy : SyncStrategy} {dev : String} {now : Nat}
    {table : String} {origLocal : List DataRecord} :
    ∀ (remotes : List DataRecord) (st : SyncManager.PullState),
      (idsOf remotes).Nodup →
      (∀ rr ∈ remotes, rr.id ≠ "") →
      (∀ i ∈ idsOf origLocal, i ∈ idsOf st.localTbl) →
      (∀ rr ∈ remotes, rr.id ∈ idsOf st.localTbl → rr.id ∈ idsOf origLocal) →
      (∀ rr ∈ remotes, rr.id ∈ idsOf st.remoteTbl) →
      (SyncManager.pullPhase1 strategy dev now table origLocal remotes st).2 = true := by
  intro remotes
  induction remotes with
  | nil =>
    intro st _ _ _ _ _
    rfl
  | cons r rs ih =>
    intro st hnd hne hsup hnew hrem
    have hnd1 : r.id ∉ idsOf rs := by
      unfold idsOf at hnd
      simp only [List.map_cons, List.nodup_cons] at hnd
      exact hnd.1
    have hnd2 : (idsOf rs).Nodup := by
      unfold idsOf at hnd
      simp only [List.map_cons, List.nodup_cons] at hnd
      exact hnd.2
    obtain ⟨st', hstep, hsub, hover, hremeq⟩ :=
      pullStep_analysis
        (hne r (List.mem_cons_self _ _))
        hsup
        (hnew r (List.mem_cons_self _ _))
        (hrem r (List.mem_cons_self _ _))
    rw [SyncManager.pullPhase1, hstep]
    apply ih st' hnd2 (fun rr hrr => hne rr (List.mem_cons_of_mem _ hrr))
    · intro i hi
      exact hsub i (hsup i hi)
    · intro rr hrr hid
      rcases hover rr.id hid with h | h
      · exact hnew rr (List.mem_cons_of_mem _ hrr) h
      · exact absurd (h ▸ List.mem_map.mpr ⟨rr, hrr, rfl⟩) hnd1
    · intro rr hrr
      rw [hremeq]
      exact hrem rr (List.mem_cons_of_mem _ hrr)

/-- The deletion loop only ever removes rows. -/
theorem pullPhase2_subset {remoteIds : List String} :
    ∀ (origLocal tbl : List DataRecord) (x : DataRecord),
      x ∈ SyncManager.pullPhase2 origLocal remoteIds tbl → x ∈ tbl := by
  intro origLocal
  induction origLocal with
  | nil =>
    intro tbl x hx
    exact hx
  | cons y rest ih =>
    intro tbl x hx
    unfold SyncManager.pullPhase2 at hx
    rw [List.foldl_cons] at hx
    by_cases hc : SyncManager.pullDeleteCond remoteIds y
    · rw [if_pos hc] at hx
      have := ih _ x hx
      exact List.mem_of_mem_filter this
    · rw [if_neg hc] at hx
      exact ih _ x hx

/-- Once the deletion loop reaches a record meeting the condition, no
row with that id survives. -/
theorem pullPhase2_removes {remoteIds : List String} {lr : DataRecord} :
    ∀ (origLocal tbl : List DataRecord),
      lr ∈ origLocal → SyncManager.pullDeleteCond remoteIds lr = true →
      ∀ x ∈ SyncManager.pullPhase2 origLocal remoteIds tbl, x.id ≠ lr.id := by
  intro origLocal
  induction origLocal with
  | nil =>
    intro tbl hmem
    exact absurd hmem (List.not_mem_nil lr)
  | cons y rest ih =>
    intro tbl hmem hcond x hx
    unfold SyncManager.pullPhase2 at hx
    rw [List.foldl_cons] at hx
    rcases List.mem_cons.mp hmem with heq | hmem'
    · subst heq
      rw [if_pos hcond] at hx
      have hx' := pullPhase2_subset rest _ x hx
      have := List.of_mem_filter hx'
      simpa using this
    · by_cases hc : SyncManager.pullDeleteCond remoteIds y
      · rw [if_pos hc] at hx
        exact ih _ hmem' hcond x hx
      · rw [if_neg hc] at hx
        exact ih _ hmem' hcond x hx

/-- A record no snapshot entry with its id condemns survives the
deletion loop. -/
theorem pullPhase2_keeps {remoteIds : List String} {lr : DataRecord} :
    ∀ (origLocal tbl : List DataRecord),
      lr ∈ tbl →
      (∀ y ∈ origLocal, y.id = lr.id → SyncManager.pullDeleteCond remoteIds y = false) →
      lr ∈ SyncManager.pullPhase2 origLocal remoteIds tbl := by
  intro origLocal
  induction origLocal with
  | nil =>
    intro tbl hmem _
    exact hmem
  | cons y rest ih =>
    intro tbl hmem hno
    unfold SyncManager.pullPhase2
    rw [List.foldl_cons]
    by_cases hc : SyncManager.pullDeleteCond remoteIds y
    · rw [if_pos hc]
      have hyne : lr.id ≠ y.id := by
        intro hx
        have := hno y (List.mem_cons_self _ _) hx.symm
        rw [this] at hc
        exact absurd hc (by simp)
      apply ih
      · apply List.mem_filter.mpr
        refine ⟨hmem, ?_⟩
        simpa using hyne
      · exact fun z hz => hno z (List.mem_cons_of_mem _ hz)
    · rw [if_neg hc]
      exact ih tbl hmem (fun z hz => hno z (List.mem_cons_of_mem _ hz))

/-- Claim C2: in a per-table pull over well-formed snapshots (distinct,
nonempty ids on both sides), a local record whose id is absent from the
remote record set is deleted when its sync state is synced, and survives
the pass untouched when its sync state is pending. -/
theorem claim_c2_pull_deletion_rule (strategy : SyncStrategy) (dev : String)
    (now : Nat) (table : String) (st : SyncManager.PullState) (lr : DataRecord)
    (hndl : (idsOf st.localTbl).Nodup)
    (hndr : (idsOf st.remoteTbl).Nodup)
    (hne : ∀ rr ∈ st.remoteTbl, rr.id ≠ "")
    (hmem : lr ∈ st.localTbl)
    (habs : ∀ rr ∈ st.remoteTbl, rr.id ≠ lr.id) :
    (lr.status = some SyncState.synced →
      ∀ x ∈ (SyncManager.pullTable strategy dev now table st).localTbl,
        x.id ≠ lr.id) ∧
    (lr.status = some SyncState.pending →
      lr ∈ (SyncManager.pullTable strategy dev now table st).localTbl) := by
  have hres2 : (SyncManager.pullPhase1 strategy dev now table
      (IndexedDBAdapter.getAllTbl st.localTbl) st.remoteTbl st).2 = true := by
    apply pullPhase1_ok st.remoteTbl st hndr hne
    · intro i hi
      exact (idsOf_getAllTbl_perm st.localTbl).mem_iff.mp hi
    · intro rr _ hid
      exact (idsOf_getAllTbl_perm st.localTbl).mem_iff.mpr hid
    · intro rr hrr
      exact List.mem_map.mpr ⟨rr, hrr, rfl⟩
  have hpt : SyncManager.pullTable strategy dev now table st =
      { (SyncManager.pullPhase1 strategy dev now table
          (IndexedDBAdapter.getAllTbl st.localTbl) st.remoteTbl st).1 with
        localTbl := SyncManager.pullPhase2 (IndexedDBAdapter.getAllTbl st.localTbl)
          (st.remoteTbl.map (fun r => r.id))
          ((SyncManager.pullPhase1 strategy dev now table
            (IndexedDBAdapter.getAllTbl st.localTbl) st.remoteTbl st).1).localTbl } := by
    unfold SyncManager.pullTable
    rw [listTbl_none]
    simp only [SupabaseAdapter.listAll, hres2, if_true]
  constructor
  · intro hsync x hx
    rw [hpt] at hx
    dsimp only at hx
    have hcont : (st.remoteTbl.map (fun r => r.id)).contains lr.id = false := by
      rw [List.contains_eq_any_beq, List.any_eq_false]
      intro i hi hbeq
      rcases List.mem_map.mp hi with ⟨rr, hrr, hri⟩
      have hieq : lr.id = i := by simpa using hbeq
      exact habs rr hrr (by rw [hri, ← hieq])
    have hcond : SyncManager.pullDeleteCond (st.remoteTbl.map (fun r => r.id)) lr = true := by
      unfold SyncManager.pullDeleteCond
      rw [hcont, hsync]
      rfl
    exact pullPhase2_removes _ _ (mem_getAllTbl.mpr hmem) hcond x hx
  · intro hpend
    rw [hpt]
    dsimp only
    apply pullPhase2_keeps
    · exact pullPhase1_keeps st.remoteTbl st hmem
        (fun rr hrr => ⟨habs rr hrr, hne rr hrr⟩)
    intro y hy hid
    have hy' : y ∈ st.localTbl := mem_getAllTbl.mp hy
    have hylr : y = lr := List.inj_on_of_nodup_map hndl hy' hmem hid
    rw [hylr]
    unfold SyncManager.pullDeleteCond
    rw [hpend]
    simp

def recSyncedOrphan : DataRecord :=
  { id := "s1", created_at := 1, updated_at := 2, vers := 1, device := "d",
    status := some SyncState.synced, fields := [("name", "gone")] }

def recPendingOrphan : DataRecord :=
  { id := "p1", created_at := 1, updated_at := 3, vers := 1, device := "d",
    status := some SyncState.pending, fields := [("name", "kept")] }

def pullStC2 : SyncManager.PullState :=
  { localTbl := [recSyncedOrphan, recPendingOrphan], remoteTbl := [recR1R],
    conflicts := [], counter := 0 }

/-- Claim C2 witness: with one remote row r1, the synced local orphan s1
is deleted by the pull and the pending local orphan p1 survives it. -/
theorem claim_c2_pull_deletion_rule_witness :
    (idsOf pullStC2.localTbl).Nodup ∧
    recSyncedOrphan.status = some SyncState.synced ∧
    recPendingOrphan.status = some SyncState.pending ∧
    (∀ x ∈ (SyncManager.pullTable .newestWins "d" 9 "clients" pullStC2).localTbl,
      x.id ≠ recSyncedOrphan.id) ∧
    recPendingOrphan ∈
      (SyncManager.pullTable .newestWins "d" 9 "clients" pullStC2).localTbl :=
  ⟨by decide, rfl, rfl,
   (claim_c2_pull_deletion_rule .newestWins "d" 9 "clients" pullStC2
     recSyncedOrphan (by decide) (by decide) (by decide) (by decide)
     (by decide)).1 rfl,
   (claim_c2_pull_deletion_rule .newestWins "d" 9 "clients" pullStC2
     recPendingOrphan (by decide) (by decide) (by decide) (by decide)
     (by decide)).2 rfl⟩

/-- What re-importing one exported row stores: the same id, creation
time and business fields, a refreshed updated_at, a bumped version, the
importing device and the pending mark. -/
def reStamp (dev : String) (now : Nat) (r : DataRecord) : DataRecord :=
  { id := r.id, created_at := r.created_at, updated_at := now,
    vers := r.vers + 1, device := dev, status := some SyncState.pending,
    fields := r.fields }

theorem addMetadata_toData {dev : String} {now : Nat} {newId : String}
    {r : DataRecord} (hid : r.id ≠ "") (hc : r.created_at ≠ 0) :
    IndexedDBAdapter.addMetadata dev now newId r.toData = reStamp dev now r := by
  unfold IndexedDBAdapter.addMetadata reStamp DataRecord.toData jsOrStr jsOrNat
  dsimp only
  rw [if_neg hid, if_neg hc]
  rfl

theorem idsOf_reStamp (dev : String) (now : Nat) (l : List DataRecord) :
    idsOf (l.map (reStamp dev now)) = idsOf l := by
  unfold idsOf
  rw [List.map_map]
  rfl

/-- Stamping the enumerated export payloads is the pointwise restamp. -/
theorem enum_stamp_eq {dev : String} {now : Nat} {b : Nat} :
    ∀ (l : List DataRecord) (k : Nat),
      (∀ r ∈ l, r.id ≠ "" ∧ r.created_at ≠ 0) →
      ((l.map DataRecord.toData).enumFrom k).map
        (fun p => IndexedDBAdapter.addMetadata dev now (genId (b + p.1)) p.2) =
      l.map (reStamp dev now) := by
  intro l
  induction l with
  | nil =>
    intro k _
    rfl
  | cons r rest ih =>
    intro k hgood
    simp only [List.map_cons, List.enumFrom_cons]
    have h1 := hgood r (List.mem_cons_self _ _)
    rw [addMetadata_toData h1.1 h1.2]
    rw [ih (k + 1) (fun x hx => hgood x (List.mem_cons_of_mem _ hx))]

/-- bulkCreate into a cleared table stores exactly the restamped rows. -/
theorem bulkCreate_cleared {dev : String} {now b : Nat} {table : String}
    {l : List DataRecord}
    (hgood : ∀ r ∈ l, r.id ≠ "" ∧ r.created_at ≠ 0)
    (hnd : (idsOf l).Nodup) :
    IndexedDBAdapter.bulkCreateTbl dev now b table [] (l.map DataRecord.toData) =
      .ok (l.map (reStamp dev now), l.map (reStamp dev now)) := by
  unfold IndexedDBAdapter.bulkCreateTbl
  dsimp only
  have hrec : ((l.map DataRecord.toData).enum).map
      (fun p => IndexedDBAdapter.addMetadata dev now (genId (b + p.1)) p.2) =
      l.map (reStamp dev now) := enum_stamp_eq l 0 hgood
  rw [hrec]
  have hnd' : (([] ++ l.map (reStamp dev now)).map (fun r : DataRecord => r.id)).Nodup := by
    rw [List.nil_append]
    have hx : idsOf (l.map (reStamp dev now)) = idsOf l := idsOf_reStamp dev now l
    unfold idsOf at hx
    rw [hx]
    exact hnd
  rw [if_pos hnd']
  rw [List.nil_append]

/-- Importing the exported table entries: every listed table ends up
holding exactly its restamped export, every other table is untouched. -/
theorem importTables_mapped {dev : String} {now : Nat} (db : Store) :
    ∀ (ts : List String) (ctr : Nat) (dbcur : Store),
      ts.Nodup →
      (∀ t ∈ ts, t ∈ IndexedDBAdapter.TABLES) →
      (∀ t ∈ ts, (idsOf (db t)).Nodup ∧ ∀ r ∈ db t, r.id ≠ "" ∧ r.created_at ≠ 0) →
      ∃ db', IndexedDBAdapter.importTables dev now ctr dbcur
          (ts.map (fun t => (t, (IndexedDBAdapter.getAllTbl (db t)).map DataRecord.toData))) =
          .ok db' ∧
        (∀ t ∈ ts, db' t = (IndexedDBAdapter.getAllTbl (db t)).map (reStamp dev now)) ∧
        (∀ u, u ∉ ts → db' u = dbcur u) := by
  intro ts
  induction ts with
  | nil =>
    intro ctr dbcur _ _ _
    refine ⟨dbcur, rfl, ?_, fun u _ => rfl⟩
    intro t ht
    exact absurd ht (List.not_mem_nil t)
  | cons t rest ih =>
    intro ctr dbcur hnd hsub hgood
    have hndt : t ∉ rest := (List.nodup_cons.mp hnd).1
    have hndr : rest.Nodup := (List.nodup_cons.mp hnd).2
    have htT : t ∈ IndexedDBAdapter.TABLES := hsub t (List.mem_cons_self _ _)
    have hcont : IndexedDBAdapter.TABLES.contains t = true := by
      rw [List.contains_eq_any_beq, List.any_eq_true]
      exact ⟨t, htT, by simp⟩
    have hgt := hgood t (List.mem_cons_self _ _)
    have hgoodAll : ∀ r ∈ IndexedDBAdapter.getAllTbl (db t), r.id ≠ "" ∧ r.created_at ≠ 0 :=
      fun r hr => hgt.2 r (mem_getAllTbl.mp hr)
    have hndAll : (idsOf (IndexedDBAdapter.getAllTbl (db t))).Nodup :=
      ((idsOf_getAllTbl_perm (db t)).nodup_iff).mpr hgt.1
    rw [List.map_cons, IndexedDBAdapter.importTables, hcont]
    simp only [if_true]
    by_cases hemp : ((IndexedDBAdapter.getAllTbl (db t)).map DataRecord.toData).isEmpty
    · rw [if_pos hemp]
      have hnil : IndexedDBAdapter.getAllTbl (db t) = [] := by
        rw [List.isEmpty_iff] at hemp
        exact List.map_eq_nil_iff.mp hemp
      obtain ⟨db', hok, hts, hothers⟩ := ih ctr (storeSet dbcur t [])
        hndr (fun u hu => hsub u (List.mem_cons_of_mem _ hu))
        (fun u hu => hgood u (List.mem_cons_of_mem _ hu))
      refine ⟨db', hok, ?_, ?_⟩
      · intro u hu
        rcases List.mem_cons.mp hu with heq | hu'
        · subst heq
          rw [hothers u hndt, hnil]
          simp [storeSet]
        · exact hts u hu'
      · intro u hu
        have hu1 : u ∉ rest := fun hx => hu (List.mem_cons_of_mem _ hx)
        have hu2 : u ≠ t := fun hx => hu (hx ▸ List.mem_cons_self _ _)
        rw [hothers u hu1]
        simp [storeSet, hu2]
    · rw [if_neg hemp]
      rw [bulkCreate_cleared hgoodAll hndAll]
      obtain ⟨db', hok, hts, hothers⟩ :=
        ih (ctr + ((IndexedDBAdapter.getAllTbl (db t)).map DataRecord.toData).length)
          (storeSet (storeSet dbcur t []) t
            ((IndexedDBAdapter.getAllTbl (db t)).map (reStamp dev now)))
          hndr (fun u hu => hsub u (List.mem_cons_of_mem _ hu))
          (fun u hu => hgood u (List.mem_cons_of_mem _ hu))
      refine ⟨db', hok, ?_, ?_⟩
      · intro u hu
        rcases List.mem_cons.mp hu with heq | hu'
        · subst heq
          rw [hothers u hndt]
          simp [storeSet]
        · exact hts u hu'
      · intro u hu
        have hu1 : u ∉ rest := fun hx => hu (List.mem_cons_of_mem _ hx)
        have hu2 : u ≠ t := fun hx => hu (hx ▸ List.mem_cons_self _ _)
        rw [hothers u hu1]
        simp [storeSet, hu2]

/-- The export document, as the import consumes it: each fixed table
mapped to its full listed contents. -/
def exportDoc (db : Store) : List (String × List RecData) :=
  (IndexedDBAdapter.exportTables db none).map (fun p => (p.1, p.2.map DataRecord.toData))

theorem exportDoc_eq (db : Store) :
    exportDoc db = IndexedDBAdapter.TABLES.map
      (fun t => (t, (IndexedDBAdapter.getAllTbl (db t)).map DataRecord.toData)) := by
  unfold exportDoc IndexedDBAdapter.exportTables
  rw [List.map_map]
  rfl

/-- Claim C8: exporting the full fixed table set from the local adapter
and importing the exported document reproduces, for every fixed table,
the same set of record ids and the same business-field values (and the
same created_at, device and sync status, which the hypotheses pin to the
adapter's own stamps); only updated_at (refreshed to the import time)
and the version (bumped by one) differ. -/
theorem claim_c8_export_import_roundtrip (dev : String) (now : Nat) (ctr : Nat)
    (db : Store)
    (h : ∀ t ∈ IndexedDBAdapter.TABLES,
      (idsOf (db t)).Nodup ∧
      ∀ r ∈ db t, r.id ≠ "" ∧ r.created_at ≠ 0 ∧ r.device = dev ∧
        r.status = some SyncState.pending) :
    ∃ db', IndexedDBAdapter.importTables dev now ctr db (exportDoc db) = .ok db' ∧
      ∀ t ∈ IndexedDBAdapter.TABLES,
        (∀ i, i ∈ idsOf (db' t) ↔ i ∈ idsOf (db t)) ∧
        (∀ x ∈ db' t, ∃ r ∈ db t, x.id = r.id ∧ x.fields = r.fields ∧
          x.created_at = r.created_at ∧ x.device = r.device ∧ x.status = r.status ∧
          x.updated_at = now ∧ x.vers = r.vers + 1) := by
  obtain ⟨db', hok, hts, _⟩ := importTables_mapped db IndexedDBAdapter.TABLES ctr db
    (by decide)
    (fun t ht => ht)
    (fun t ht => ⟨(h t ht).1, fun r hr => ⟨((h t ht).2 r hr).1, ((h t ht).2 r hr).2.1⟩⟩)
  refine ⟨db', ?_, ?_⟩
  · rw [exportDoc_eq]
    exact hok
  · intro t ht
    have hdbt := hts t ht
    constructor
    · intro i
      rw [hdbt]
      have h1 : idsOf ((IndexedDBAdapter.getAllTbl (db t)).map (reStamp dev now)) =
          idsOf (IndexedDBAdapter.getAllTbl (db t)) :=
        idsOf_reStamp dev now _
      rw [h1]
      exact (idsOf_getAllTbl_perm (db t)).mem_iff
    · intro x hx
      rw [hdbt] at hx
      rcases List.mem_map.mp hx with ⟨r, hr, hrx⟩
      have hrdb : r ∈ db t := mem_getAllTbl.mp hr
      have hprops := (h t ht).2 r hrdb
      refine ⟨r, hrdb, ?_, ?_, ?_, ?_, ?_, ?_, ?_⟩ <;> rw [← hrx]
      · rfl
      · rfl
      · rfl
      · exact hprops.2.2.1.symm
      · rw [hprops.2.2.2]
        rfl
      · rfl
      · rfl

def recW1 : DataRecord :=
  { id := "w1", created_at := 1, updated_at := 4, vers := 2, device := "dev",
    status := some SyncState.pending, fields := [("name", "alpha")] }

def recW2 : DataRecord :=
  { id := "w2", created_at := 2, updated_at := 5, vers := 1, device := "dev",
    status := some SyncState.pending, fields := [("name", "beta")] }

def dbC8 : Store := fun t => if t = "clients" then [recW1, recW2] else []

/-- Claim C8 witness: a concrete two-record clients table round-trips
with the same ids and fields. -/
theorem claim_c8_export_import_roundtrip_witness :
    (∀ t ∈ IndexedDBAdapter.TABLES,
      (idsOf (dbC8 t)).Nodup ∧
      ∀ r ∈ dbC8 t, r.id ≠ "" ∧ r.created_at ≠ 0 ∧ r.device = "dev" ∧
        r.status = some SyncState.pending) ∧
    (∃ db', IndexedDBAdapter.importTables "dev" 20 0 dbC8 (exportDoc dbC8) = .ok db' ∧
      ∀ t ∈ IndexedDBAdapter.TABLES,
        (∀ i, i ∈ idsOf (db' t) ↔ i ∈ idsOf (dbC8 t)) ∧
        (∀ x ∈ db' t, ∃ r ∈ dbC8 t, x.id = r.id ∧ x.fields = r.fields ∧
          x.created_at = r.created_at ∧ x.device = r.device ∧ x.status = r.status ∧
          x.updated_at = 20 ∧ x.vers = r.vers + 1)) :=
  ⟨by decide, claim_c8_export_import_roundtrip "dev" 20 0 dbC8 (by decide)⟩
